import Mathlib

/-! Formal model of the purr audio pipeline (purr-core).  The definitions are a
shallow embedding of the Rust source in `purr-core/src/audio.rs`,
`purr-core/src/whisper/mod.rs` and `purr-core/src/whisper/streaming.rs`.
Machine floating point (`f32`/`f64`) is modelled by exact rationals; the
external FFmpeg decode/resample capabilities and the whisper inference engine
are modelled as oracle parameters (`DecodeEnv`, `ResampleEnv`, `InferOutcome`),
mirroring exactly the call sites and control flow of the source. -/

namespace Purr

/-- Interleaving kind of a sample format (`ffmpeg::format::sample::Type`:
`Packed` or `Planar`). -/
inductive SampleKind
  | packed
  | planar
  deriving DecidableEq, Repr

/-- Sample format (`ffmpeg::format::Sample`).  The source only distinguishes
`I16(_)`, `F32(_)` and everything else (`matches!` at audio.rs:605-608), but
key comparison uses the full format value, so the kind is kept. -/
inductive SampleFormat
  | I16 (k : SampleKind)
  | F32 (k : SampleKind)
  | other (tag : ℕ)
  deriving DecidableEq, Repr

/-- `ChannelLayout::MONO` bitmask (`AV_CH_LAYOUT_MONO`). -/
def CH_LAYOUT_MONO : ℕ := 4

/-- `ChannelLayout::STEREO` bitmask (`AV_CH_LAYOUT_STEREO`). -/
def CH_LAYOUT_STEREO : ℕ := 3

/-- `ChannelLayout::default(n)` — FFmpeg's default layout for `n` channels
(external library value; only its equality behaviour matters to the model,
and it agrees with MONO/STEREO for 1 and 2 channels). -/
def defaultChannelLayout (n : ℕ) : ℕ :=
  match n with
  | 1 => CH_LAYOUT_MONO
  | 2 => CH_LAYOUT_STEREO
  | n => 2 ^ n - 1

/-- One decoded audio frame (`ffmpeg::frame::Audio`) as observed by
`process_audio_frame_to_buffer`: format, rate, channel count, the reported
channel-layout bitmask together with its channel count, and the raw payload
(as i16 words when the format is I16, as f32 samples when it is F32; the
payload of other formats is only ever seen by the external resampler and
therefore not carried). -/
structure AudioFrame where
  format : SampleFormat
  rate : ℕ
  channels : ℕ
  layoutMask : ℕ
  layoutChannels : ℕ
  dataI16 : List ℤ
  dataF32 : List ℚ
  deriving DecidableEq

/-- Error type (`WhisperError`), restricted to the variants reachable from the
audio pipeline. -/
inductive WhisperErr
  | AudioProcessing (msg : String)
  | FFmpeg (msg : String)
  | Transcription (msg : String)
  deriving DecidableEq

/-- Effective channel layout of a frame (audio.rs:587-596): if the reported
layout has zero channels, substitute a canonical default for the channel
count, otherwise use the reported layout. -/
def effectiveLayout (frame : AudioFrame) : ℕ :=
  if frame.layoutChannels = 0 then defaultChannelLayout frame.channels
  else frame.layoutMask

/-- `is_direct_convertible` (audio.rs:605-608): direct conversion is possible
for I16 and F32 formats with exactly one channel. -/
def is_direct_convertible (frame : AudioFrame) : Bool :=
  (match frame.format with
   | .I16 _ => true
   | .F32 _ => true
   | .other _ => false) && frame.channels == 1

/-- Conversion of one signed 16-bit sample to float: `sample as f32 / 32768.0`
(audio.rs:690). -/
def i16ToF32 (v : ℤ) : ℚ := (v : ℚ) / 32768

/-- Round a rational to an integer, halves to the even neighbour (the tie
rule of IEEE 754 round-to-nearest). -/
def roundHalfEven (q : ℚ) : ℤ :=
  if Int.fract q < 1/2 then ⌊q⌋
  else if 1/2 < Int.fract q then ⌊q⌋ + 1
  else if ⌊q⌋ % 2 = 0 then ⌊q⌋ else ⌊q⌋ + 1

/-- `⌈log₂ m⌉` of a positive natural. -/
def ceilLog2Nat (m : ℕ) : ℕ :=
  if m ≤ 1 then 0 else Nat.log 2 (m - 1) + 1

/-- `⌊log₂ q⌋` of a positive rational: for `q ≥ 1` it is `⌊log₂ ⌊q⌋⌋`, and
below 1 it is `-⌈log₂ (1/q)⌉ = -⌈log₂ ⌈den/num⌉⌉`. -/
def floorLog2Q (q : ℚ) : ℤ :=
  if 1 ≤ q then (Nat.log 2 (q.num.toNat / q.den) : ℤ)
  else -(ceilLog2Nat ((q.den + q.num.toNat - 1) / q.num.toNat) : ℤ)

/-- Rounding of an exact rational to the nearest value with a 24-bit binary
significand — IEEE 754 binary32 (`f32`) round-to-nearest-even, with an
unbounded exponent: the model is exact over the normal range, and the
pipeline's cursor values (between 1 and the frame length plus one step) never
reach the overflow or subnormal ranges of the real format. -/
def roundF32 (q : ℚ) : ℚ :=
  if q = 0 then 0
  else
    let e : ℤ := floorLog2Q |q| - 23
    let r : ℚ := (roundHalfEven (|q| * 2 ^ (-e)) : ℚ) * 2 ^ e
    if q < 0 then -r else r

/-- `f32` addition: the exact sum, correctly rounded. -/
def addF32 (x y : ℚ) : ℚ := roundF32 (x + y)

/-- `f32` division: the exact quotient, correctly rounded. -/
def divF32 (x y : ℚ) : ℚ := roundF32 (x / y)

/-- `n as f32` for an unsigned integer: the exact value, correctly rounded. -/
def natToF32 (n : ℕ) : ℚ := roundF32 n

/-- The fast-path decimation loop (audio.rs:686-693 and 707-714):
`pos` starts at `0.0` and advances by `pos += step` in `f32` arithmetic per
iteration; while `pos as usize` is in bounds, the sample at that index is
converted by `conv` and pushed.  The Rust `while` loop is embedded with an
explicit fuel counter; since every `f32` value is an exact rational, the cast
`pos as usize` is exactly `Int.toNat ⌊pos⌋` for the nonnegative cursor. -/
def decimGo {α : Type} (step : ℚ) (xs : List α) (conv : α → ℚ) (d : α) :
    ℕ → ℚ → List ℚ
  | 0, _ => []
  | fuel + 1, pos =>
      if Int.toNat ⌊pos⌋ < xs.length then
        conv (xs.getD (Int.toNat ⌊pos⌋) d) :: decimGo step xs conv d fuel (addF32 pos step)
      else []

/-- Fast-path decimation of a whole slice, with the source's step
`rate as f32 / 16000.0` (an `f32` division of the `f32`-cast rate).  The fuel
`16000 * xs.length + 1` bounds the embedding; in the regimes covered by the
theorems below (step ≥ 1) the loop always stops before exhausting it. -/
def decimate {α : Type} (rate : ℕ) (xs : List α) (conv : α → ℚ) (d : α) : List ℚ :=
  decimGo (divF32 (natToF32 rate) 16000) xs conv d (16000 * xs.length + 1) 0

/-- Resampler state of the pipeline (audio.rs:304-308): the optional live
conversion context (identified by the key it was built for) and the three
independently tracked `last_format` / `last_channel_layout` / `last_rate`
fields. -/
structure ResamplerState where
  ctx : Option (SampleFormat × ℕ × ℕ)
  lastFormat : Option SampleFormat
  lastLayout : Option ℕ
  lastRate : Option ℕ
  deriving DecidableEq

/-- The initial (and post-failure) resampler state: everything `None`. -/
def ResamplerState.init : ResamplerState :=
  { ctx := none, lastFormat := none, lastLayout := none, lastRate := none }

/-- Oracle for the external software-resampling capability:
`ctxGetOk fmt layout rate` tells whether `Context::get` succeeds for that
source key, and `run fmt layout rate frame` gives the converted mono/f32/16k
samples, or `none` when `resampler_ctx.run` fails. -/
structure ResampleEnv where
  ctxGetOk : SampleFormat → ℕ → ℕ → Bool
  run : SampleFormat → ℕ → ℕ → AudioFrame → Option (List ℚ)

/-- Result of processing one frame: the samples appended to the output buffer,
the updated resampler state, and (ghost observation) how many resampler
contexts were constructed while processing the frame (0 or 1). -/
structure FrameOut where
  out : List ℚ
  st : ResamplerState
  rebuilds : ℕ
  deriving DecidableEq

/-- `AudioProcessor::process_audio_frame_to_buffer` (audio.rs:570-728).
`process_audio_frame` (audio.rs:412-567) is textually identical except that it
appends to the main sample vector, so both are embedded by this one function.

Control flow mirrored from the source:
- compute the effective channel layout (zero-channel substitution);
- `resampler_needs_update` compares the three `last_*` fields to the frame;
- if the frame is not directly convertible, rebuild the context when needed
  (`Context::get` failure propagates as an error), then run the conversion;
  a conversion failure clears the context and all `last_*` fields, emits
  nothing, and returns success;
- otherwise the fast path converts in place (I16 divided by 32768, F32 copied),
  decimating with the floating cursor when the rate differs from 16000. -/
def process_audio_frame_to_buffer (renv : ResampleEnv) (frame : AudioFrame)
    (st : ResamplerState) : Except WhisperErr FrameOut :=
  let current_format := frame.format
  let current_rate := frame.rate
  let current_channel_layout := effectiveLayout frame
  if is_direct_convertible frame then
    match current_format with
    | .I16 _ =>
        if current_rate = 16000 then
          .ok ⟨frame.dataI16.map i16ToF32, st, 0⟩
        else
          .ok ⟨decimate current_rate frame.dataI16 i16ToF32 0, st, 0⟩
    | .F32 _ =>
        if current_rate = 16000 then
          .ok ⟨frame.dataF32, st, 0⟩
        else
          .ok ⟨decimate current_rate frame.dataF32 (fun x => x) 0, st, 0⟩
    | .other _ =>
        -- unreachable: guarded by `is_direct_convertible` (audio.rs:717-723)
        .error (.AudioProcessing "Unexpected audio format in direct conversion path")
  else
    if st.lastFormat ≠ some current_format ∨ st.lastLayout ≠ some current_channel_layout ∨
        st.lastRate ≠ some current_rate ∨ st.ctx = none then
      if renv.ctxGetOk current_format current_channel_layout current_rate then
        let st1 : ResamplerState :=
          { ctx := some (current_format, current_channel_layout, current_rate),
            lastFormat := some current_format,
            lastLayout := some current_channel_layout,
            lastRate := some current_rate }
        match renv.run current_format current_channel_layout current_rate frame with
        | some out => .ok ⟨out, st1, 1⟩
        | none => .ok ⟨[], ResamplerState.init, 1⟩
      else
        .error (.FFmpeg "Failed to create resampler")
    else
      match st.ctx with
      | some (f, l, r) =>
          match renv.run f l r frame with
          | some out => .ok ⟨out, st, 0⟩
          | none => .ok ⟨[], ResamplerState.init, 0⟩
      | none =>
          -- unreachable: the rebuild condition above covers `st.ctx = none`
          .ok ⟨[], st, 0⟩

/-- Key `(format, channel_layout, rate)` of a frame as used for resampler
rebuild decisions. -/
def keyOf (frame : AudioFrame) : SampleFormat × ℕ × ℕ :=
  (frame.format, effectiveLayout frame, frame.rate)

/-- Processing a list of frames through the resampler in order (the frame loop
of the streaming pipeline), with per-frame errors skipped, returning the total
number of resampler-context constructions and the final state. -/
def run_frames (renv : ResampleEnv) : List AudioFrame → ResamplerState → ℕ × ResamplerState
  | [], st => (0, st)
  | f :: fs, st =>
      match process_audio_frame_to_buffer renv f st with
      | .error _ => run_frames renv fs st
      | .ok r =>
          let p := run_frames renv fs r.st
          (r.rebuilds + p.1, p.2)

/-- Specification count of rebuilds along a key sequence: one for the first
frame of a run (relative to the incoming tracked key) and one per change of
key between consecutive frames. -/
def rebuildsSpec : Option (SampleFormat × ℕ × ℕ) → List (SampleFormat × ℕ × ℕ) → ℕ
  | _, [] => 0
  | last, k :: ks => (if last = some k then 0 else 1) + rebuildsSpec (some k) ks

/-- The fully-tracking resampler state corresponding to an optional active
key. -/
def stOf : Option (SampleFormat × ℕ × ℕ) → ResamplerState
  | none => ResamplerState.init
  | some (f, l, r) => { ctx := some (f, l, r), lastFormat := some f, lastLayout := some l, lastRate := some r }

/-- `TranscriptionStats` (whisper/mod.rs:16-37), with `f64`/`f32` modelled by
rationals. -/
structure TranscriptionStats where
  processing_time : ℚ
  audio_duration : ℚ
  real_time_factor : ℚ
  segment_count : ℕ
  avg_segment_length : ℚ
  word_count : ℕ
  words_per_minute : ℚ
  deriving DecidableEq

/-- `TranscriptionStats::new` (whisper/mod.rs:40-68). -/
def TranscriptionStats.new (processing_time : ℚ) (audio_duration : ℚ)
    (segment_count : ℕ) (word_count : ℕ) : TranscriptionStats :=
  let real_time_factor := if processing_time > 0 then audio_duration / processing_time else 0
  let avg_segment_length := if segment_count > 0 then audio_duration / (segment_count : ℚ) else 0
  let words_per_minute := if audio_duration > 0 then ((word_count : ℚ) * 60) / audio_duration else 0
  { processing_time := processing_time,
    audio_duration := audio_duration,
    real_time_factor := real_time_factor,
    segment_count := segment_count,
    avg_segment_length := avg_segment_length,
    word_count := word_count,
    words_per_minute := words_per_minute }

/-- `AudioChunk` (audio.rs:26-39). -/
structure AudioChunk where
  samples : List ℚ
  sample_rate : ℕ
  duration : ℚ
  index : ℕ
  start_time : ℚ
  is_final : Bool
  deriving DecidableEq

/-- `AudioChunk::TARGET_SAMPLES = (10.0 * 16000.0) as usize` (audio.rs:46). -/
def AudioChunk.TARGET_SAMPLES : ℕ := 160000

/-- `AudioChunk::new` (audio.rs:49-59): duration is `samples.len() / 16000.0`
and the sample rate is fixed at 16000. -/
def AudioChunk.new (samples : List ℚ) (index : ℕ) (start_time : ℚ)
    (is_final : Bool) : AudioChunk :=
  { samples := samples,
    sample_rate := 16000,
    duration := (samples.length : ℚ) / 16000,
    index := index,
    start_time := start_time,
    is_final := is_final }

/-- `AudioData` (audio.rs:15-22). -/
structure AudioData where
  samples : List ℚ
  sample_rate : ℕ
  duration : ℚ
  deriving DecidableEq

deriving instance DecidableEq for Except

/-- Outcome of `decoder.send_packet` plus the subsequent `receive_frame` loop
for one packet: success with the decoded frames, `Error::InvalidData`
(skipped with a warning), or any other error (fatal). -/
inductive SendOutcome
  | ok (frames : List AudioFrame)
  | invalidData
  | fatal (msg : String)
  deriving DecidableEq

/-- One demuxed packet: whether its stream index matches the selected audio
stream, and the decoder's response to it. -/
structure Packet where
  onStream : Bool
  outcome : SendOutcome
  deriving DecidableEq

/-- Oracle for the external container/decode capability as observed by
`load_audio_sync` / `stream_audio_sync`: the `path.exists()` check, the
success of `ffmpeg::format::input`, the presence of a best audio stream, the
success of decoder construction, the packet sequence, and the decoder-flush
behaviour (`send_eof` success plus the frames drained by the flush loop). -/
structure DecodeEnv where
  path : String
  fileExists : Bool
  openOk : Bool
  hasAudioStream : Bool
  decoderOk : Bool
  packets : List Packet
  flushOk : Bool
  flushFrames : List AudioFrame
  deriving DecidableEq

/-- State of the streaming producer (audio.rs:298-308) together with the
outward channel: the chunk accumulation buffer, running chunk index and
consumed-samples counter, the resampler state, the messages successfully
published so far, and the channel capacity (`none` = the receiver is never
dropped; `some b` = exactly `b` more sends succeed before the channel
closes). -/
structure ProducerState where
  chunk_samples : List ℚ
  chunk_index : ℕ
  total_samples_processed : ℕ
  res : ResamplerState
  sent : List (Except WhisperErr AudioChunk)
  cap : Option ℕ

/-- Initial producer state for a given channel capacity. -/
def ProducerState.init (cap : Option ℕ) : ProducerState :=
  { chunk_samples := [], chunk_index := 0, total_samples_processed := 0,
    res := ResamplerState.init, sent := [], cap := cap }

/-- `tx.send(msg)`: appends the message when the channel is open and reports
whether the send succeeded. -/
def sendMsg (s : ProducerState) (m : Except WhisperErr AudioChunk) :
    ProducerState × Bool :=
  match s.cap with
  | none => ({ s with sent := s.sent ++ [m] }, true)
  | some 0 => (s, false)
  | some (b + 1) => ({ s with sent := s.sent ++ [m], cap := some b }, true)

/-- The chunk-emission loop of `stream_audio_sync` (audio.rs:335-350):
while the buffer holds at least `TARGET_SAMPLES`, drain exactly
`TARGET_SAMPLES` from the front, publish them as a non-final chunk, and on a
failed publish return immediately (flag `true`).  The Rust `while` loop is
embedded with a fuel counter; `fuel = buffer length` always suffices. -/
def drainSend : ℕ → ProducerState → ProducerState × Bool
  | 0, s => (s, false)
  | fuel + 1, s =>
      if AudioChunk.TARGET_SAMPLES ≤ s.chunk_samples.length then
        let chunk_data := s.chunk_samples.take AudioChunk.TARGET_SAMPLES
        let start_time := (s.total_samples_processed : ℚ) / 16000
        let chunk := AudioChunk.new chunk_data s.chunk_index start_time false
        let s1 := { s with chunk_samples := s.chunk_samples.drop AudioChunk.TARGET_SAMPLES }
        match sendMsg s1 (.ok chunk) with
        | (s2, true) =>
            drainSend fuel
              { s2 with chunk_index := s2.chunk_index + 1,
                        total_samples_processed :=
                          s2.total_samples_processed + AudioChunk.TARGET_SAMPLES }
        | (s2, false) => (s2, true)
      else (s, false)

/-- The per-packet frame loop of `stream_audio_sync` (audio.rs:315-351): each
frame is processed into a temporary buffer (processing errors are logged and
the frame skipped), appended to the chunk buffer, and full chunks are drained
and published; a failed publish aborts the whole run (flag `true`). -/
def framesLoop (renv : ResampleEnv) : List AudioFrame → ProducerState → ProducerState × Bool
  | [], s => (s, false)
  | f :: fs, s =>
      match process_audio_frame_to_buffer renv f s.res with
      | .error _ => framesLoop renv fs s
      | .ok r =>
          let s1 := { s with res := r.st, chunk_samples := s.chunk_samples ++ r.out }
          match drainSend s1.chunk_samples.length s1 with
          | (s2, true) => (s2, true)
          | (s2, false) => framesLoop renv fs s2

/-- How the packet loop of `stream_audio_sync` finished: all packets
processed, early return after a failed chunk publish, or a fatal
`send_packet` error. -/
inductive LoopExit
  | finished
  | earlyStop
  | fatalErr (e : WhisperErr)
  deriving DecidableEq

/-- The packet loop of `stream_audio_sync` (audio.rs:311-367).  Returns the
final producer state, the number of packets consumed from the list, and how
the loop exited.  Packets of other streams are skipped, `InvalidData` is
logged and skipped, any other `send_packet` error is published and fatal. -/
def packetsLoop (renv : ResampleEnv) : List Packet → ProducerState → ProducerState × ℕ × LoopExit
  | [], s => (s, 0, .finished)
  | p :: ps, s =>
      if p.onStream then
        match p.outcome with
        | .ok frames =>
            match framesLoop renv frames s with
            | (s1, true) => (s1, 1, .earlyStop)
            | (s1, false) =>
                let r := packetsLoop renv ps s1
                (r.1, r.2.1 + 1, r.2.2)
        | .invalidData =>
            let r := packetsLoop renv ps s
            (r.1, r.2.1 + 1, r.2.2)
        | .fatal m =>
            let e := WhisperErr.FFmpeg ("Failed to send packet to decoder: " ++ m)
            ((sendMsg s (.error e)).1, 1, .fatalErr e)
      else
        let r := packetsLoop renv ps s
        (r.1, r.2.1 + 1, r.2.2)

/-- The decoder-flush loop of `stream_audio_sync` (audio.rs:370-392): each
drained frame is processed (errors skipped) and its samples appended to the
chunk buffer.  Note that, unlike the packet loop, the source performs no
chunk drain here — flushed samples only ever reach the final chunk. -/
def flushLoop (renv : ResampleEnv) : List AudioFrame → ProducerState → ProducerState
  | [], s => s
  | f :: fs, s =>
      match process_audio_frame_to_buffer renv f s.res with
      | .error _ => flushLoop renv fs s
      | .ok r => flushLoop renv fs { s with res := r.st, chunk_samples := s.chunk_samples ++ r.out }

/-- The "no audio data" message (audio.rs:402). -/
def noAudioMsg : String :=
  "No audio data could be extracted from file - file may be corrupted or unsupported"

/-- Observable outcome of one `stream_audio_sync` run: the messages published
on the channel, the number of packets consumed, whether the run ended by the
early return after a failed chunk publish, and the function's return value. -/
structure StreamRun where
  msgs : List (Except WhisperErr AudioChunk)
  consumed : ℕ
  stopped : Bool
  result : Except WhisperErr Unit
  deriving DecidableEq

/-- `AudioProcessor::stream_audio_sync` (audio.rs:262-409): existence check
(error published and returned), container open, best-stream lookup, decoder
construction, the packet loop, the flush loop, and the final-chunk / no-audio
logic (audio.rs:394-406).  Failed publishes of the final chunk and of error
messages are ignored by the source (`let _ = tx.send(...)`). -/
def stream_audio_sync (renv : ResampleEnv) (env : DecodeEnv) (cap : Option ℕ) : StreamRun :=
  if env.fileExists = false then
    let e := WhisperErr.AudioProcessing ("Audio file not found: " ++ env.path)
    { msgs := ((sendMsg (ProducerState.init cap) (.error e)).1).sent,
      consumed := 0, stopped := false, result := .error e }
  else if env.openOk = false then
    { msgs := [], consumed := 0, stopped := false,
      result := .error (.FFmpeg "Failed to open audio file") }
  else if env.hasAudioStream = false then
    { msgs := [], consumed := 0, stopped := false,
      result := .error (.AudioProcessing "No audio stream found") }
  else if env.decoderOk = false then
    { msgs := [], consumed := 0, stopped := false,
      result := .error (.FFmpeg "Failed to get audio decoder") }
  else
    match packetsLoop renv env.packets (ProducerState.init cap) with
    | (s, n, .earlyStop) =>
        { msgs := s.sent, consumed := n, stopped := true, result := .ok () }
    | (s, n, .fatalErr e) =>
        { msgs := s.sent, consumed := n, stopped := false, result := .error e }
    | (s, n, .finished) =>
        let s1 := if env.flushOk then flushLoop renv env.flushFrames s else s
        if s1.chunk_samples ≠ [] then
          let chunk := AudioChunk.new s1.chunk_samples s1.chunk_index
            ((s1.total_samples_processed : ℚ) / 16000) true
          { msgs := ((sendMsg s1 (.ok chunk)).1).sent, consumed := n,
            stopped := false, result := .ok () }
        else if s1.chunk_index = 0 then
          let e := WhisperErr.AudioProcessing noAudioMsg
          { msgs := ((sendMsg s1 (.error e)).1).sent, consumed := n,
            stopped := false, result := .error e }
        else
          { msgs := s1.sent, consumed := n, stopped := false, result := .ok () }

/-- The frame loop of `load_audio_sync` (audio.rs:197-207): in the batch
loader, frame-processing errors propagate (`?`). -/
def loadFrames (renv : ResampleEnv) : List AudioFrame → List ℚ → ResamplerState →
    Except WhisperErr (List ℚ × ResamplerState)
  | [], samples, st => .ok (samples, st)
  | f :: fs, samples, st =>
      match process_audio_frame_to_buffer renv f st with
      | .error e => .error e
      | .ok r => loadFrames renv fs (samples ++ r.out) r.st

/-- The packet loop of `load_audio_sync` (audio.rs:191-222). -/
def loadPackets (renv : ResampleEnv) : List Packet → List ℚ → ResamplerState →
    Except WhisperErr (List ℚ × ResamplerState)
  | [], samples, st => .ok (samples, st)
  | p :: ps, samples, st =>
      if p.onStream then
        match p.outcome with
        | .ok frames =>
            match loadFrames renv frames samples st with
            | .error e => .error e
            | .ok q => loadPackets renv ps q.1 q.2
        | .invalidData => loadPackets renv ps samples st
        | .fatal m => .error (.FFmpeg ("Failed to send packet to decoder: " ++ m))
      else loadPackets renv ps samples st

/-- Packet loop plus flush of `load_audio_sync` (audio.rs:191-242): the
decoded-and-normalized sample stream of the batch loader.  A failed
`send_eof` is non-fatal and skips the flush frames. -/
def loadDecode (renv : ResampleEnv) (env : DecodeEnv) :
    Except WhisperErr (List ℚ × ResamplerState) :=
  match loadPackets renv env.packets [] ResamplerState.init with
  | .error e => .error e
  | .ok q =>
      if env.flushOk then loadFrames renv env.flushFrames q.1 q.2
      else .ok q

/-- `AudioProcessor::load_audio_sync` (audio.rs:146-259). -/
def load_audio_sync (renv : ResampleEnv) (env : DecodeEnv) : Except WhisperErr AudioData :=
  if env.fileExists = false then
    .error (.AudioProcessing ("Audio file not found: " ++ env.path))
  else if env.openOk = false then
    .error (.FFmpeg "Failed to open audio file")
  else if env.hasAudioStream = false then
    .error (.AudioProcessing "No audio stream found")
  else if env.decoderOk = false then
    .error (.FFmpeg "Failed to get audio decoder")
  else
    match loadDecode renv env with
    | .error e => .error e
    | .ok q =>
        if q.1 = [] then .error (.AudioProcessing noAudioMsg)
        else .ok { samples := q.1, sample_rate := 16000, duration := ((q.1).length : ℚ) / 16000 }

/-- `StreamingChunk` (whisper/mod.rs:132-150); the source field `end` is a
Lean keyword and is embedded as `end_time`. -/
structure StreamingChunk where
  text : String
  start : ℚ
  end_time : ℚ
  is_final : Bool
  chunk_index : ℕ
  final_stats : Option TranscriptionStats
  deriving DecidableEq

/-- Outcome of the whisper engine for one processed chunk:
whether `state.full` succeeded, the result of `full_n_segments`
(`none` = retrieval failed), and the per-segment text retrieval
(`none` = that segment's text could not be fetched and is skipped). -/
structure InferOutcome where
  fullOk : Bool
  nSegments : Option ℕ
  segText : ℕ → Option String

/-- `split_whitespace().count()`: number of non-empty maximal runs between
whitespace characters. -/
def countWords (s : String) : ℕ :=
  ((s.split fun c => c.isWhitespace).filter fun w => w ≠ "").length

/-- Concatenation of the retrievable segment texts of one chunk
(whisper/streaming.rs:105-119): segments whose text cannot be fetched are
skipped. -/
def segmentsText (o : InferOutcome) (n : ℕ) : String :=
  (List.range n).foldl (fun acc i => acc ++ ((o.segText i).getD "")) ""

/-- The chunk-consumption loop of
`StreamWhisperTranscriber::process_audio_stream`
(whisper/streaming.rs:76-173).  Arguments after the input list: the position
counter indexing the oracle, then the running totals
`total_audio_duration`, `total_segments`, `total_word_count`.
`elapsed pos` models `start_time.elapsed()` observed while processing item
`pos`.  An input error is forwarded and the loop breaks; a failed inference
or segment-count retrieval skips the chunk's output and continues. -/
def consumeLoop (elapsed : ℕ → ℚ) (oracle : ℕ → InferOutcome) :
    List (Except WhisperErr AudioChunk) → ℕ → ℚ → ℕ → ℕ →
    List (Except WhisperErr StreamingChunk)
  | [], _, _, _, _ => []
  | .error e :: _, _, _, _, _ => [.error e]
  | .ok chunk :: rest, pos, dur, segs, words =>
      let dur1 := dur + chunk.duration
      let o := oracle pos
      if o.fullOk then
        match o.nSegments with
        | some n =>
            let chunk_text := segmentsText o n
            let segs1 := segs + n
            let words1 := words + countWords chunk_text
            let final_stats :=
              if chunk.is_final then
                some (TranscriptionStats.new (elapsed pos) dur1 segs1 words1)
              else none
            let sc : StreamingChunk :=
              { text := chunk_text,
                start := chunk.start_time,
                end_time := chunk.start_time + chunk.duration,
                is_final := chunk.is_final,
                chunk_index := chunk.index,
                final_stats := final_stats }
            .ok sc :: consumeLoop elapsed oracle rest (pos + 1) dur1 segs1 words1
        | none => consumeLoop elapsed oracle rest (pos + 1) dur1 segs words
      else consumeLoop elapsed oracle rest (pos + 1) dur1 segs words

/-- `StreamWhisperTranscriber::process_audio_stream`
(whisper/streaming.rs:59-176): state creation (failure returns an error before
any output; the wrapper in `transcribe` then publishes it as a terminal error
entry), followed by the chunk-consumption loop starting from zero totals. -/
def process_audio_stream (createOk : Bool) (elapsed : ℕ → ℚ)
    (oracle : ℕ → InferOutcome) (input : List (Except WhisperErr AudioChunk)) :
    Except WhisperErr Unit × List (Except WhisperErr StreamingChunk) :=
  if createOk = false then
    (.error (.Transcription "Failed to create state"), [])
  else
    (.ok (), consumeLoop elapsed oracle input 0 0 0 0)

/-- Chunks successfully published among a message list. -/
def okChunks (msgs : List (Except WhisperErr AudioChunk)) : List AudioChunk :=
  msgs.filterMap fun m => match m with | .ok c => some c | .error _ => none

/-- Invariant of the streaming producer on an open channel (`cap = none`):
the published chunk indices are exactly `0, 1, …, chunk_index - 1` in order,
and every published chunk so far is a non-final chunk of exactly
`TARGET_SAMPLES` samples. -/
def GoodState (s : ProducerState) : Prop :=
  s.cap = none
  ∧ (okChunks s.sent).map AudioChunk.index = List.range s.chunk_index
  ∧ ∀ c ∈ okChunks s.sent, c.is_final = false
      ∧ c.samples.length = AudioChunk.TARGET_SAMPLES

/-- Budget accounting of the producer on a channel that accepts exactly `c0`
messages in total: at every point the remaining capacity plus the number of
successfully published messages equals `c0`. -/
def Budget (c0 : ℕ) (s : ProducerState) : Prop :=
  s.cap = some (c0 - s.sent.length) ∧ s.sent.length ≤ c0

/-! Theorems. -/

/-- Claim C4 (confirmed): `TranscriptionStats::new` computes
`real_time_factor = audio_duration / processing_time` when
`processing_time > 0` and `0` otherwise (in particular for
`processing_time ≤ 0`), `avg_segment_length = audio_duration / segment_count`
when `segment_count > 0` and `0` otherwise, and
`words_per_minute = word_count * 60 / audio_duration` when
`audio_duration > 0` and `0` otherwise; no guarded division is ever taken
with a zero divisor. -/
theorem transcription_stats_new_guards (pt ad : ℚ) (sc wc : ℕ) :
    (0 < pt → (TranscriptionStats.new pt ad sc wc).real_time_factor = ad / pt)
    ∧ (pt ≤ 0 → (TranscriptionStats.new pt ad sc wc).real_time_factor = 0)
    ∧ (0 < sc → (TranscriptionStats.new pt ad sc wc).avg_segment_length = ad / (sc : ℚ))
    ∧ (sc = 0 → (TranscriptionStats.new pt ad sc wc).avg_segment_length = 0)
    ∧ (0 < ad → (TranscriptionStats.new pt ad sc wc).words_per_minute = ((wc : ℚ) * 60) / ad)
    ∧ (ad ≤ 0 → (TranscriptionStats.new pt ad sc wc).words_per_minute = 0) := by
  refine ⟨fun h => ?_, fun h => ?_, fun h => ?_, fun h => ?_, fun h => ?_, fun h => ?_⟩
  · simp [TranscriptionStats.new, h]
  · have h2 : ¬ pt > 0 := not_lt.mpr h
    simp [TranscriptionStats.new, h2]
  · simp [TranscriptionStats.new, h]
  · simp [TranscriptionStats.new, h]
  · simp [TranscriptionStats.new, h]
  · have h2 : ¬ ad > 0 := not_lt.mpr h
    simp [TranscriptionStats.new, h2]

/-- Witness for C4: the spec's worked example
(`processing_time = 2`, `audio_duration = 10`, `segment_count = 5`,
`word_count = 20` give RTF 5, average segment length 2, 120 words per
minute) and the zero-duration safety cases. -/
theorem transcription_stats_new_guards_witness :
    (TranscriptionStats.new 2 10 5 20).real_time_factor = 10 / 2
    ∧ (TranscriptionStats.new 2 10 5 20).avg_segment_length = 10 / (5 : ℚ)
    ∧ (TranscriptionStats.new 2 10 5 20).words_per_minute = ((20 : ℚ) * 60) / 10
    ∧ (TranscriptionStats.new 0 10 5 20).real_time_factor = 0
    ∧ (TranscriptionStats.new 2 0 5 20).words_per_minute = 0 :=
  ⟨(transcription_stats_new_guards 2 10 5 20).1 (by norm_num),
   (transcription_stats_new_guards 2 10 5 20).2.2.1 (by norm_num),
   (transcription_stats_new_guards 2 10 5 20).2.2.2.2.1 (by norm_num),
   (transcription_stats_new_guards 0 10 5 20).2.1 (by norm_num),
   (transcription_stats_new_guards 2 0 5 20).2.2.2.2.2 (by norm_num)⟩

/-- Claim C7 (confirmed): when a frame goes through the general resampler and
the conversion (`resampler_ctx.run`) fails, the pipeline emits zero output
samples for the frame, resets the resampler state to the uninitialized state
(context and all last-format/layout/rate tracking cleared), and returns
success, so the caller continues with the next frame. -/
theorem resample_conversion_failure_recovers (renv : ResampleEnv)
    (st : ResamplerState) (frame : AudioFrame)
    (hnd : is_direct_convertible frame = false)
    (hctx : renv.ctxGetOk frame.format (effectiveLayout frame) frame.rate = true)
    (hrun : ∀ fmt l r, renv.run fmt l r frame = none) :
    ∃ rb, process_audio_frame_to_buffer renv frame st = .ok ⟨[], ResamplerState.init, rb⟩
      ∧ ResamplerState.init.ctx = none
      ∧ ResamplerState.init.lastFormat = none
      ∧ ResamplerState.init.lastLayout = none
      ∧ ResamplerState.init.lastRate = none := by
  by_cases hcond : st.lastFormat ≠ some frame.format
      ∨ st.lastLayout ≠ some (effectiveLayout frame)
      ∨ st.lastRate ≠ some frame.rate ∨ st.ctx = none
  · exact ⟨1, by simp [process_audio_frame_to_buffer, hnd, hcond, hctx, hrun], rfl, rfl, rfl, rfl⟩
  · push_neg at hcond
    obtain ⟨h1, h2, h3, h4⟩ := hcond
    obtain ⟨⟨f, l, r⟩, hk⟩ := Option.ne_none_iff_exists'.mp h4
    refine ⟨0, ?_, rfl, rfl, rfl, rfl⟩
    simp [process_audio_frame_to_buffer, hnd, h1, h2, h3, hk, hrun]

/-- Witness for C7 at a concrete frame, state and failing conversion
oracle. -/
theorem resample_conversion_failure_recovers_witness :
    ∃ rb,
      process_audio_frame_to_buffer ⟨fun _ _ _ => true, fun _ _ _ _ => none⟩
        { format := .other 0, rate := 44100, channels := 2, layoutMask := CH_LAYOUT_STEREO,
          layoutChannels := 2, dataI16 := [], dataF32 := [] }
        ResamplerState.init = .ok ⟨[], ResamplerState.init, rb⟩
      ∧ ResamplerState.init.ctx = none
      ∧ ResamplerState.init.lastFormat = none
      ∧ ResamplerState.init.lastLayout = none
      ∧ ResamplerState.init.lastRate = none :=
  resample_conversion_failure_recovers ⟨fun _ _ _ => true, fun _ _ _ _ => none⟩
    ResamplerState.init
    { format := .other 0, rate := 44100, channels := 2, layoutMask := CH_LAYOUT_STEREO,
      layoutChannels := 2, dataI16 := [], dataF32 := [] }
    (by decide) (by decide) (fun _ _ _ => rfl)

/-- Running the resampler on a frame whose key matches the fully-tracking
state is conversion without a rebuild. -/
theorem process_resampler_hit (renv : ResampleEnv) (f : AudioFrame) (out : List ℚ)
    (hnd : is_direct_convertible f = false)
    (hrun : renv.run f.format (effectiveLayout f) f.rate f = some out) :
    process_audio_frame_to_buffer renv f (stOf (some (keyOf f))) =
      .ok ⟨out, stOf (some (keyOf f)), 0⟩ := by
  simp [process_audio_frame_to_buffer, hnd, stOf, keyOf, hrun]

/-- Running the resampler on a frame whose key is not the tracked one (or with
no live context) constructs exactly one context and transitions to the
fully-tracking state for the frame's key. -/
theorem process_resampler_rebuild (renv : ResampleEnv) (f : AudioFrame)
    (st : ResamplerState) (out : List ℚ)
    (hnd : is_direct_convertible f = false)
    (hctx : renv.ctxGetOk f.format (effectiveLayout f) f.rate = true)
    (hrun : renv.run f.format (effectiveLayout f) f.rate f = some out)
    (hmiss : st.lastFormat ≠ some f.format ∨ st.lastLayout ≠ some (effectiveLayout f)
      ∨ st.lastRate ≠ some f.rate ∨ st.ctx = none) :
    process_audio_frame_to_buffer renv f st = .ok ⟨out, stOf (some (keyOf f)), 1⟩ := by
  simp [process_audio_frame_to_buffer, hnd, hmiss, hctx, hrun, stOf, keyOf]

/-- Rebuild counting along a frame list, from a fully-tracking state:
one rebuild per key change (the first frame counting as a change relative to
the incoming tracked key). -/
theorem run_frames_spec (renv : ResampleEnv)
    (hctx : ∀ fmt l r, renv.ctxGetOk fmt l r = true)
    (hrun : ∀ fmt l r fr, (renv.run fmt l r fr).isSome) :
    ∀ (frames : List AudioFrame), (∀ f ∈ frames, is_direct_convertible f = false) →
      ∀ last, ∃ last',
        run_frames renv frames (stOf last) =
          (rebuildsSpec last (frames.map keyOf), stOf last') := by
  intro frames
  induction frames with
  | nil => exact fun _ last => ⟨last, rfl⟩
  | cons f fs ih =>
      intro hnd last
      obtain ⟨out, hout⟩ := Option.isSome_iff_exists.mp
        (hrun f.format (effectiveLayout f) f.rate f)
      have hndf : is_direct_convertible f = false := hnd f (by simp)
      have hnds : ∀ g ∈ fs, is_direct_convertible g = false := fun g hg => hnd g (by simp [hg])
      by_cases hl : last = some (keyOf f)
      · subst hl
        obtain ⟨last', hrec⟩ := ih hnds (some (keyOf f))
        refine ⟨last', ?_⟩
        simp only [run_frames, process_resampler_hit renv f out hndf hout, hrec,
          List.map_cons, rebuildsSpec]
        simp
      · have hmiss : (stOf last).lastFormat ≠ some f.format
            ∨ (stOf last).lastLayout ≠ some (effectiveLayout f)
            ∨ (stOf last).lastRate ≠ some f.rate ∨ (stOf last).ctx = none := by
          match last with
          | none => simp [stOf, ResamplerState.init]
          | some (a, b, c) =>
              by_contra hcon
              push_neg at hcon
              obtain ⟨e1, e2, e3, _⟩ := hcon
              simp only [stOf, Option.some.injEq] at e1 e2 e3
              exact hl (by simp [keyOf, ← e1, ← e2, ← e3])
        obtain ⟨last', hrec⟩ := ih hnds (some (keyOf f))
        refine ⟨last', ?_⟩
        simp only [run_frames, process_resampler_rebuild renv f (stOf last) out hndf
          (hctx _ _ _) hout hmiss, hrec, List.map_cons, rebuildsSpec]
        simp [hl]

/-- Claim C6 (confirmed): along any sequence of frames routed through the
general resampler (with all context constructions and conversions
succeeding), starting from the uninitialized state, the number of resampler
contexts constructed equals one for the first frame plus one per change of
the `(format, channel_layout, rate)` key between consecutive frames; in
particular an identically-repeating run constructs exactly one context and
each change causes exactly one rebuild before the next conversion. -/
theorem resampler_rebuild_minimality (renv : ResampleEnv) (frames : List AudioFrame)
    (hnd : ∀ f ∈ frames, is_direct_convertible f = false)
    (hctx : ∀ fmt l r, renv.ctxGetOk fmt l r = true)
    (hrun : ∀ fmt l r fr, (renv.run fmt l r fr).isSome) :
    (run_frames renv frames ResamplerState.init).1 =
      rebuildsSpec none (frames.map keyOf) := by
  obtain ⟨last', h⟩ := run_frames_spec renv hctx hrun frames hnd none
  rw [show ResamplerState.init = stOf none from rfl, h]

/-- Witness for C6: three frames with an identically-repeating key followed by
one key change construct exactly two contexts (one for the run, one for the
change). -/
theorem resampler_rebuild_minimality_witness :
    (run_frames ⟨fun _ _ _ => true, fun _ _ _ _ => some []⟩
      [{ format := .other 0, rate := 44100, channels := 2, layoutMask := CH_LAYOUT_STEREO,
         layoutChannels := 2, dataI16 := [], dataF32 := [] },
       { format := .other 0, rate := 44100, channels := 2, layoutMask := CH_LAYOUT_STEREO,
         layoutChannels := 2, dataI16 := [], dataF32 := [] },
       { format := .other 0, rate := 48000, channels := 2, layoutMask := CH_LAYOUT_STEREO,
         layoutChannels := 2, dataI16 := [], dataF32 := [] }]
      ResamplerState.init).1 =
      rebuildsSpec none
        ([{ format := .other 0, rate := 44100, channels := 2, layoutMask := CH_LAYOUT_STEREO,
            layoutChannels := 2, dataI16 := [], dataF32 := [] },
          { format := .other 0, rate := 44100, channels := 2, layoutMask := CH_LAYOUT_STEREO,
            layoutChannels := 2, dataI16 := [], dataF32 := [] },
          { format := .other 0, rate := 48000, channels := 2, layoutMask := CH_LAYOUT_STEREO,
            layoutChannels := 2, dataI16 := [], dataF32 := [] }].map keyOf) :=
  resampler_rebuild_minimality _ _ (by decide) (fun _ _ _ => rfl) (fun _ _ _ _ => rfl)

/-- Round-half-even of an integer value is that value. -/
theorem roundHalfEven_natCast (N : ℕ) : roundHalfEven ((N : ℕ) : ℚ) = (N : ℤ) := by
  rw [roundHalfEven, Int.fract_natCast]
  rw [if_pos (by norm_num : (0 : ℚ) < 1/2)]
  exact Int.floor_natCast N

/-- `f32` rounding is the identity on integers below `2^24`: they carry at
most 24 significant bits. -/
theorem roundF32_natCast (k : ℕ) (h0 : 0 < k) (hlt : k < 2 ^ 24) :
    roundF32 (k : ℚ) = k := by
  have hne : ((k : ℚ)) ≠ 0 := Nat.cast_ne_zero.mpr (by omega)
  have habs : |(k : ℚ)| = (k : ℚ) := abs_of_nonneg (Nat.cast_nonneg k)
  have hlog : floorLog2Q (k : ℚ) = (Nat.log 2 k : ℤ) := by
    rw [floorLog2Q, if_pos (Nat.one_le_cast.mpr h0)]
    rw [Rat.num_natCast, Rat.den_natCast, Int.toNat_natCast, Nat.div_one]
  have hL24 : Nat.log 2 k < 24 :=
    (Nat.lt_pow_iff_log_lt (by norm_num) (by omega)).mp hlt
  simp only [roundF32]
  rw [if_neg hne, habs, hlog,
    if_neg (not_lt.mpr (Nat.cast_nonneg k) : ¬ ((k : ℚ) < 0))]
  have ht : -((Nat.log 2 k : ℤ) - 23) = ((23 - Nat.log 2 k : ℕ) : ℤ) := by omega
  rw [ht, zpow_natCast]
  have hcast : (k : ℚ) * (2 : ℚ) ^ (23 - Nat.log 2 k)
      = ((k * 2 ^ (23 - Nat.log 2 k) : ℕ) : ℚ) := by push_cast; ring
  rw [hcast, roundHalfEven_natCast]
  have hzp : ((Nat.log 2 k : ℤ) - 23) = -((23 - Nat.log 2 k : ℕ) : ℤ) := by omega
  rw [hzp, zpow_neg, zpow_natCast]
  push_cast
  rw [mul_assoc, mul_inv_cancel₀ (by positivity), mul_one]

/-- The loop guard at cursor `j * m`: it holds exactly for the first
`⌈n / m⌉ = (n + m - 1) / m` iteration counts. -/
theorem lt_ceilDiv_iff (m n j : ℕ) (hm : 1 ≤ m) :
    j < (n + m - 1) / m ↔ j * m < n := by
  rw [Nat.lt_iff_add_one_le, Nat.le_div_iff_mul_le hm]
  have h : (j + 1) * m = j * m + m := by ring
  rw [h]
  omega

/-- Closed form of the decimation loop for an integral step `m` in the
float-exact regime: every cursor value is an integer multiple of `m` below
`2^24`, so the `f32` additions are exact, and the loop started at `j * m`
emits one sample per multiple of `m` below the slice length. -/
theorem decimGo_int_step {α : Type} (m : ℕ) (hm : 1 ≤ m) (xs : List α)
    (conv : α → ℚ) (d : α) (hbound : xs.length + m ≤ 2 ^ 24) :
    ∀ (fuel j : ℕ), (xs.length + m - 1) / m ≤ j + fuel → j * m ≤ xs.length + m →
      decimGo (m : ℚ) xs conv d fuel (((j * m : ℕ) : ℚ))
        = (List.range ((xs.length + m - 1) / m - j)).map
            (fun i : ℕ => conv (xs.getD ((j + i) * m) d)) := by
  intro fuel
  induction fuel with
  | zero =>
      intro j hfu hjm
      have h0 : (xs.length + m - 1) / m - j = 0 := by omega
      simp [decimGo, h0]
  | succ fuel ih =>
      intro j hfu hjm
      have hguard_iff := lt_ceilDiv_iff m xs.length j hm
      have hcast : Int.toNat ⌊((j * m : ℕ) : ℚ)⌋ = j * m := by
        rw [Int.floor_natCast, Int.toNat_natCast]
      by_cases hj : j < (xs.length + m - 1) / m
      · have hguard : j * m < xs.length := hguard_iff.mp hj
        have hcond : Int.toNat ⌊((j * m : ℕ) : ℚ)⌋ < xs.length := by
          rw [hcast]; exact hguard
        have hmul : (j + 1) * m = j * m + m := by ring
        have hadd : addF32 (((j * m : ℕ) : ℚ)) (m : ℚ) = (((j + 1) * m : ℕ) : ℚ) := by
          rw [addF32]
          have hsum : ((j * m : ℕ) : ℚ) + (m : ℚ) = (((j + 1) * m : ℕ) : ℚ) := by
            push_cast; ring
          rw [hsum]
          exact roundF32_natCast ((j + 1) * m)
            (Nat.mul_pos (Nat.succ_pos j) (by omega)) (by rw [hmul]; omega)
        have hrec := ih (j + 1) (by omega) (by rw [hmul]; omega)
        have hsub : (xs.length + m - 1) / m - j
            = ((xs.length + m - 1) / m - (j + 1)) + 1 := by omega
        simp only [decimGo]
        rw [if_pos hcond, hadd, hrec, hcast, hsub, List.range_succ_eq_map,
          List.map_cons, List.map_map]
        refine congrArg₂ List.cons (by norm_num) ?_
        apply List.map_congr_left
        intro a ha
        simp only [Function.comp_apply, Nat.succ_eq_add_one]
        rw [show j + 1 + a = j + (a + 1) from by omega]
      · have hge : ¬ j * m < xs.length := fun hc => hj (hguard_iff.mpr hc)
        have hcond : ¬ Int.toNat ⌊((j * m : ℕ) : ℚ)⌋ < xs.length := by
          rw [hcast]; exact hge
        have h0 : (xs.length + m - 1) / m - j = 0 := by omega
        simp only [decimGo]
        rw [if_neg hcond, h0]
        simp

/-- Closed form of the fast-path decimation at a source rate `16000 * m` in
the float-exact regime: the rate cast, the step division and every cursor
addition are exact in `f32`, and the loop emits `⌈len / m⌉` samples, the
`j`-th being the source sample at index `j * m`. -/
theorem decimate_int_step {α : Type} (m : ℕ) (hm : 2 ≤ m) (hR : 16000 * m < 2 ^ 24)
    (xs : List α) (conv : α → ℚ) (d : α) (hbound : xs.length + m ≤ 2 ^ 24) :
    decimate (16000 * m) xs conv d
      = (List.range ((xs.length + m - 1) / m)).map
          (fun j : ℕ => conv (xs.getD (j * m) d)) := by
  have hmlt : m < 2 ^ 24 := by omega
  have hstep : divF32 (natToF32 (16000 * m)) 16000 = (m : ℚ) := by
    rw [natToF32, roundF32_natCast (16000 * m) (by omega) hR, divF32]
    rw [show ((16000 * m : ℕ) : ℚ) / 16000 = ((m : ℕ) : ℚ) from by
      push_cast
      rw [mul_comm, mul_div_assoc]
      norm_num]
    exact roundF32_natCast m (by omega) hmlt
  have hfuel : (xs.length + m - 1) / m ≤ 0 + (16000 * xs.length + 1) := by
    have hlt : (xs.length + m - 1) / m < xs.length + 1 := by
      rw [Nat.div_lt_iff_lt_mul (by omega : 0 < m)]
      have h : (xs.length + 1) * m = xs.length * m + m := by ring
      rw [h]
      have h2 : xs.length ≤ xs.length * m :=
        Nat.le_mul_of_pos_right xs.length (by omega)
      omega
    have h3 : xs.length ≤ 16000 * xs.length :=
      Nat.le_mul_of_pos_left xs.length (by omega)
    omega
  have h0 : (0 : ℚ) = ((0 * m : ℕ) : ℚ) := by norm_num
  rw [decimate, hstep, h0,
    decimGo_int_step m (by omega) xs conv d hbound (16000 * xs.length + 1) 0 hfuel
      (by simp)]
  simp

/-- Claim C3 (corrected): the fast-path cursor is `f32` arithmetic
(`step = rate as f32 / 16000.0`, `pos += step`, index `pos as usize`), so its
behaviour depends on binary32 rounding and no rounding-free closed form holds
for arbitrary rates.  In the float-exact regime — a rate `16000 * m` that is
an exact multiple of 16000 (so the step is the integer `m`, and every cursor
value an integer multiple of `m`), with `len + m ≤ 2^24` keeping all cursor
integers exactly representable — a fast-path frame (mono, int16 or float32)
is decimated without touching the resampler state to exactly
`⌈len / m⌉ = (len + m - 1) / m` samples (not `⌊len / m⌋`), the `j`-th being
the source sample at index `j * m` (int16 values divided by 32768); that
count equals the spec-side form `⌈len · 16000 / R⌉` at these rates, and
agrees with the claimed floor exactly when `m` divides `len`, as in the
spec's example `R = 32000`, `len = 100`. -/
theorem fast_path_decimation (renv : ResampleEnv) (st : ResamplerState)
    (frame : AudioFrame) (m : ℕ) (hch : frame.channels = 1) (hm : 2 ≤ m)
    (hrate : frame.rate = 16000 * m) (hR : 16000 * m < 2 ^ 24) :
    (∀ sk, frame.format = .I16 sk → frame.dataI16.length + m ≤ 2 ^ 24 →
      process_audio_frame_to_buffer renv frame st =
        .ok ⟨(List.range ((frame.dataI16.length + m - 1) / m)).map
          (fun j : ℕ => i16ToF32 (frame.dataI16.getD (j * m) 0)), st, 0⟩)
    ∧ (∀ sk, frame.format = .F32 sk → frame.dataF32.length + m ≤ 2 ^ 24 →
      process_audio_frame_to_buffer renv frame st =
        .ok ⟨(List.range ((frame.dataF32.length + m - 1) / m)).map
          (fun j : ℕ => frame.dataF32.getD (j * m) 0), st, 0⟩)
    ∧ (∀ n : ℕ, ((n + m - 1) / m : ℕ)
        = Int.toNat ⌈(n : ℚ) * 16000 / ((16000 * m : ℕ) : ℚ)⌉) := by
  have hne : ¬ frame.rate = 16000 := by rw [hrate]; omega
  have hm0 : (0 : ℚ) < (m : ℚ) := by exact_mod_cast (by omega : 0 < m)
  refine ⟨fun sk hfmt hbound => ?_, fun sk hfmt hbound => ?_, fun n => ?_⟩
  · have hdir : is_direct_convertible frame = true := by
      simp [is_direct_convertible, hfmt, hch]
    simp only [process_audio_frame_to_buffer, hdir, if_true, hfmt]
    rw [if_neg hne, hrate, decimate_int_step m hm hR _ _ _ hbound]
  · have hdir : is_direct_convertible frame = true := by
      simp [is_direct_convertible, hfmt, hch]
    simp only [process_audio_frame_to_buffer, hdir, if_true, hfmt]
    rw [if_neg hne, hrate, decimate_int_step m hm hR _ _ _ hbound]
  · have hq : (n : ℚ) * 16000 / ((16000 * m : ℕ) : ℚ) = (n : ℚ) / (m : ℚ) := by
      push_cast
      rw [div_eq_div_iff (ne_of_gt (mul_pos (by norm_num) hm0)) (ne_of_gt hm0)]
      ring
    rw [hq]
    have h1 : ∀ j : ℕ, j < (n + m - 1) / m ↔ j * m < n :=
      fun j => lt_ceilDiv_iff m n j (by omega)
    have h2 : ∀ j : ℕ, j < Int.toNat ⌈(n : ℚ) / (m : ℚ)⌉ ↔ j * m < n := by
      intro j
      constructor
      · intro h
        have ha : (j : ℤ) < ⌈(n : ℚ) / (m : ℚ)⌉ := by omega
        have hb : (j : ℚ) < (n : ℚ) / (m : ℚ) := by
          have := Int.lt_ceil.mp ha
          push_cast at this
          exact this
        have hc : (j : ℚ) * (m : ℚ) < (n : ℚ) := (lt_div_iff₀ hm0).mp hb
        exact_mod_cast hc
      · intro h
        have hc : (j : ℚ) * (m : ℚ) < (n : ℚ) := by exact_mod_cast h
        have hb : (j : ℚ) < (n : ℚ) / (m : ℚ) := (lt_div_iff₀ hm0).mpr hc
        have ha : (j : ℤ) < ⌈(n : ℚ) / (m : ℚ)⌉ := Int.lt_ceil.mpr (by push_cast; exact hb)
        omega
    apply Nat.le_antisymm
    · apply Nat.le_of_not_lt
      intro hlt
      exact Nat.lt_irrefl _ ((h2 _).mpr ((h1 _).mp hlt))
    · apply Nat.le_of_not_lt
      intro hlt
      exact Nat.lt_irrefl _ ((h1 _).mpr ((h2 _).mp hlt))

/-- Witness for C3 at the spec's own example: `R = 32000` (so `m = 2`), 100
float samples give 50 output samples, taken at indices 0, 2, …, 98. -/
theorem fast_path_decimation_witness :
    process_audio_frame_to_buffer ⟨fun _ _ _ => true, fun _ _ _ _ => some []⟩
      { format := .F32 .packed, rate := 32000, channels := 1,
        layoutMask := CH_LAYOUT_MONO, layoutChannels := 1,
        dataI16 := [], dataF32 := List.replicate 100 0 }
      ResamplerState.init =
      .ok ⟨(List.range 50).map
        (fun j : ℕ => (List.replicate 100 (0 : ℚ)).getD (j * 2) 0),
        ResamplerState.init, 0⟩ := by
  have h := (fast_path_decimation ⟨fun _ _ _ => true, fun _ _ _ _ => some []⟩
    ResamplerState.init
    { format := .F32 .packed, rate := 32000, channels := 1,
      layoutMask := CH_LAYOUT_MONO, layoutChannels := 1,
      dataI16 := [], dataF32 := List.replicate 100 0 } 2
    rfl (by norm_num) (by norm_num) (by norm_num)).2.1 .packed rfl
    (by rw [List.length_replicate]; norm_num)
  rw [h]
  norm_num [List.length_replicate]

/-- Counterexample for C3 as stated: at `R = 32000` (step exactly 2.0, exact
even in `f32`) with 101 input samples the fast path emits 51 samples, whereas
the claimed count `⌊n / (R/16000)⌋ = ⌊101 / 2⌋` is 50. -/
theorem fast_path_decimation_counterexample :
    (process_audio_frame_to_buffer ⟨fun _ _ _ => true, fun _ _ _ _ => some []⟩
      { format := .F32 .packed, rate := 32000, channels := 1,
        layoutMask := CH_LAYOUT_MONO, layoutChannels := 1,
        dataI16 := [], dataF32 := List.replicate 101 0 }
      ResamplerState.init).map (fun r => r.out.length) = .ok 51
    ∧ (51 : ℕ) ≠ Int.toNat ⌊(101 : ℚ) / ((32000 : ℚ) / 16000)⌋ := by
  constructor
  · have hdir : is_direct_convertible
        { format := SampleFormat.F32 .packed, rate := 32000, channels := 1,
          layoutMask := CH_LAYOUT_MONO, layoutChannels := 1,
          dataI16 := [], dataF32 := List.replicate 101 (0 : ℚ) } = true := by decide
    simp only [process_audio_frame_to_buffer, hdir, if_true]
    rw [if_neg (by norm_num : ¬ (32000 : ℕ) = 16000)]
    rw [show (32000 : ℕ) = 16000 * 2 from by norm_num]
    rw [decimate_int_step 2 (by norm_num) (by norm_num) _ _ _
      (by rw [List.length_replicate]; norm_num)]
    rw [List.length_replicate]
    simp [Except.map]
  · rw [show (101 : ℚ) / ((32000 : ℚ) / 16000) = (101 : ℚ) / 2 from by norm_num]
    rw [show ⌊(101 : ℚ) / 2⌋ = 50 from by
      rw [Int.floor_eq_iff]
      norm_num]
    decide

/-- The front part of a list with its last element removed is contained in the
head plus the front part of the tail. -/
theorem dropLast_cons_subset {α : Type} (a : α) (l : List α) :
    (a :: l).dropLast ⊆ a :: l.dropLast := by
  cases l with
  | nil => simp
  | cons b t =>
      intro x hx
      rw [List.dropLast_cons₂] at hx
      exact hx

/-- Shape of the consumer loop output, for any starting totals: all messages
but possibly the last are valid chunks, a chunk carries `final_stats` exactly
when its source audio chunk was final, and an error entry can only be the
terminal message. -/
theorem consumeLoop_shape (elapsed : ℕ → ℚ) (oracle : ℕ → InferOutcome) :
    ∀ (input : List (Except WhisperErr AudioChunk)) (pos : ℕ) (dur : ℚ) (segs words : ℕ),
      (∀ m ∈ (consumeLoop elapsed oracle input pos dur segs words).dropLast, ∃ c, m = .ok c)
      ∧ (∀ c, Except.ok c ∈ consumeLoop elapsed oracle input pos dur segs words →
          c.final_stats.isSome = c.is_final)
      ∧ (∀ e, Except.error e ∈ consumeLoop elapsed oracle input pos dur segs words →
          (consumeLoop elapsed oracle input pos dur segs words).getLast? = some (.error e)) := by
  intro input
  induction input with
  | nil => intro pos dur segs words; simp [consumeLoop]
  | cons x rest ih =>
      intro pos dur segs words
      match x with
      | .error e => simp [consumeLoop]
      | .ok chunk =>
          by_cases ho : (oracle pos).fullOk
          · cases hn : (oracle pos).nSegments with
            | none =>
                have hred : consumeLoop elapsed oracle (.ok chunk :: rest) pos dur segs words
                    = consumeLoop elapsed oracle rest (pos + 1) (dur + chunk.duration) segs words := by
                  simp [consumeLoop, ho, hn]
                rw [hred]
                exact ih (pos + 1) (dur + chunk.duration) segs words
            | some n =>
                obtain ⟨ih1, ih2, ih3⟩ := ih (pos + 1) (dur + chunk.duration)
                  (segs + n) (words + countWords (segmentsText (oracle pos) n))
                have hred : consumeLoop elapsed oracle (.ok chunk :: rest) pos dur segs words
                    = .ok { text := segmentsText (oracle pos) n,
                            start := chunk.start_time,
                            end_time := chunk.start_time + chunk.duration,
                            is_final := chunk.is_final,
                            chunk_index := chunk.index,
                            final_stats :=
                              if chunk.is_final then
                                some (TranscriptionStats.new (elapsed pos) (dur + chunk.duration)
                                  (segs + n) (words + countWords (segmentsText (oracle pos) n)))
                              else none } ::
                        consumeLoop elapsed oracle rest (pos + 1) (dur + chunk.duration)
                          (segs + n) (words + countWords (segmentsText (oracle pos) n)) := by
                  simp [consumeLoop, ho, hn]
                rw [hred]
                set sc : StreamingChunk :=
                  { text := segmentsText (oracle pos) n,
                    start := chunk.start_time,
                    end_time := chunk.start_time + chunk.duration,
                    is_final := chunk.is_final,
                    chunk_index := chunk.index,
                    final_stats :=
                      if chunk.is_final then
                        some (TranscriptionStats.new (elapsed pos) (dur + chunk.duration)
                          (segs + n) (words + countWords (segmentsText (oracle pos) n)))
                      else none } with hsc
                set tail := consumeLoop elapsed oracle rest (pos + 1) (dur + chunk.duration)
                  (segs + n) (words + countWords (segmentsText (oracle pos) n)) with htail
                refine ⟨?_, ?_, ?_⟩
                · intro m hm
                  rcases List.mem_cons.mp (dropLast_cons_subset _ _ hm) with hm2 | hm2
                  · exact ⟨sc, hm2⟩
                  · exact ih1 m hm2
                · intro c hc
                  rcases List.mem_cons.mp hc with hc | hc
                  · have hc2 : c = sc := by simpa using hc
                    subst hc2
                    rw [hsc]
                    by_cases hf : chunk.is_final
                    · simp [hf]
                    · simp [hf]
                  · exact ih2 c hc
                · intro e he
                  rcases List.mem_cons.mp he with he | he
                  · exact absurd he (by simp)
                  · have hne : tail ≠ [] := List.ne_nil_of_mem he
                    obtain ⟨t, ts, hts⟩ := List.exists_cons_of_ne_nil hne
                    rw [hts, List.getLast?_cons_cons, ← hts]
                    exact ih3 e he
          · have hred : consumeLoop elapsed oracle (.ok chunk :: rest) pos dur segs words
                = consumeLoop elapsed oracle rest (pos + 1) (dur + chunk.duration) segs words := by
              simp [consumeLoop, ho]
            rw [hred]
            exact ih (pos + 1) (dur + chunk.duration) segs words

/-- Claim C5 (corrected): the output of `process_audio_stream` is a prefix of
valid `StreamingChunk`s followed by at most one terminal error entry (an
error can only be the last message), and `final_stats` is set on exactly the
chunks emitted for an `is_final` audio chunk.  (The original claim that the
last emitted chunk of a naturally completed run always has `final_stats` set
fails: see the counterexample.) -/
theorem streaming_output_shape (createOk : Bool) (elapsed : ℕ → ℚ)
    (oracle : ℕ → InferOutcome) (input : List (Except WhisperErr AudioChunk)) :
    (∀ m ∈ (process_audio_stream createOk elapsed oracle input).2.dropLast, ∃ c, m = .ok c)
    ∧ (∀ c, Except.ok c ∈ (process_audio_stream createOk elapsed oracle input).2 →
        c.final_stats.isSome = c.is_final)
    ∧ (∀ e, Except.error e ∈ (process_audio_stream createOk elapsed oracle input).2 →
        (process_audio_stream createOk elapsed oracle input).2.getLast? = some (.error e)) := by
  cases createOk with
  | false => simp [process_audio_stream]
  | true =>
      have h := consumeLoop_shape elapsed oracle input 0 0 0 0
      simpa [process_audio_stream] using h

/-- Witness for C5 at a concrete run: one final audio chunk, successful
inference with zero segments; the emitted chunk carries `final_stats`. -/
theorem streaming_output_shape_witness :
    ∀ c, Except.ok c ∈ (process_audio_stream true (fun _ => 7)
        (fun _ => ⟨true, some 0, fun _ => none⟩)
        [.ok (AudioChunk.new [0] 3 5 true)]).2 →
      c.final_stats.isSome = c.is_final :=
  (streaming_output_shape true (fun _ => 7) (fun _ => ⟨true, some 0, fun _ => none⟩)
    [.ok (AudioChunk.new [0] 3 5 true)]).2.1

/-- Counterexample for C5 as stated: an audio stream whose chunks divide the
input exactly (e.g. 160000 samples) contains no `is_final` chunk, so the
streaming run completes naturally with its last (and only) emitted chunk
carrying no `final_stats`. -/
theorem streaming_final_stats_counterexample :
    process_audio_stream true (fun _ => 1)
      (fun _ => ⟨true, some 0, fun _ => none⟩)
      [.ok (AudioChunk.new (List.replicate 160000 0) 0 0 false)] =
      (.ok (), [.ok { text := "", start := 0, end_time := 10, is_final := false,
                      chunk_index := 0, final_stats := none }]) := by
  rw [show AudioChunk.new (List.replicate 160000 (0 : ℚ)) 0 0 false
      = { samples := List.replicate 160000 0, sample_rate := 16000, duration := 10,
          index := 0, start_time := 0, is_final := false } from by
    simp only [AudioChunk.new, List.length_replicate]
    norm_num]
  simp [process_audio_stream, consumeLoop, segmentsText]

/-- Every chunk emitted by the consumer loop takes its `start`/`end` from the
chunk-window boundaries of some input audio chunk. -/
theorem consumeLoop_chunk_source (elapsed : ℕ → ℚ) (oracle : ℕ → InferOutcome) :
    ∀ (input : List (Except WhisperErr AudioChunk)) (pos : ℕ) (dur : ℚ) (segs words : ℕ) c,
      Except.ok c ∈ consumeLoop elapsed oracle input pos dur segs words →
      ∃ a, Except.ok a ∈ input ∧ c.start = a.start_time
        ∧ c.end_time = a.start_time + a.duration
        ∧ c.chunk_index = a.index ∧ c.is_final = a.is_final := by
  intro input
  induction input with
  | nil => intro pos dur segs words c hc; simp [consumeLoop] at hc
  | cons x rest ih =>
      intro pos dur segs words c hc
      match x with
      | .error e =>
          simp [consumeLoop] at hc
      | .ok chunk =>
          by_cases ho : (oracle pos).fullOk
          · cases hn : (oracle pos).nSegments with
            | none =>
                rw [show consumeLoop elapsed oracle (.ok chunk :: rest) pos dur segs words
                    = consumeLoop elapsed oracle rest (pos + 1) (dur + chunk.duration) segs words
                  from by simp [consumeLoop, ho, hn]] at hc
                obtain ⟨a, ha, h⟩ := ih (pos + 1) (dur + chunk.duration) segs words c hc
                exact ⟨a, List.mem_cons_of_mem _ ha, h⟩
            | some n =>
                rw [show consumeLoop elapsed oracle (.ok chunk :: rest) pos dur segs words
                    = .ok { text := segmentsText (oracle pos) n,
                            start := chunk.start_time,
                            end_time := chunk.start_time + chunk.duration,
                            is_final := chunk.is_final,
                            chunk_index := chunk.index,
                            final_stats :=
                              if chunk.is_final then
                                some (TranscriptionStats.new (elapsed pos) (dur + chunk.duration)
                                  (segs + n) (words + countWords (segmentsText (oracle pos) n)))
                              else none } ::
                        consumeLoop elapsed oracle rest (pos + 1) (dur + chunk.duration)
                          (segs + n) (words + countWords (segmentsText (oracle pos) n))
                  from by simp [consumeLoop, ho, hn]] at hc
                rcases List.mem_cons.mp hc with hc | hc
                · refine ⟨chunk, List.mem_cons_self _ _, ?_⟩
                  have hc2 := Except.ok.inj hc
                  subst hc2
                  exact ⟨rfl, rfl, rfl, rfl⟩
                · obtain ⟨a, ha, h⟩ := ih (pos + 1) (dur + chunk.duration) (segs + n)
                    (words + countWords (segmentsText (oracle pos) n)) c hc
                  exact ⟨a, List.mem_cons_of_mem _ ha, h⟩
          · rw [show consumeLoop elapsed oracle (.ok chunk :: rest) pos dur segs words
                = consumeLoop elapsed oracle rest (pos + 1) (dur + chunk.duration) segs words
              from by simp [consumeLoop, ho]] at hc
            obtain ⟨a, ha, h⟩ := ih (pos + 1) (dur + chunk.duration) segs words c hc
            exact ⟨a, List.mem_cons_of_mem _ ha, h⟩

/-- Claim C10 (confirmed): every `StreamingChunk` emitted by
`process_audio_stream` has `start` equal to the source `AudioChunk`'s
`start_time` and `end` equal to `start_time + duration` (and copies the
source index and final flag), and `AudioChunk::new` fixes
`duration = samples.len() / 16000` and `sample_rate = 16000`; the outward
times are chunk-window boundaries, not per-segment engine timestamps (the
model of the consumer never reads segment times at all). -/
theorem streaming_chunk_window_times (createOk : Bool) (elapsed : ℕ → ℚ)
    (oracle : ℕ → InferOutcome) (input : List (Except WhisperErr AudioChunk)) :
    (∀ c, Except.ok c ∈ (process_audio_stream createOk elapsed oracle input).2 →
      ∃ a, Except.ok a ∈ input ∧ c.start = a.start_time
        ∧ c.end_time = a.start_time + a.duration
        ∧ c.chunk_index = a.index ∧ c.is_final = a.is_final)
    ∧ (∀ (s : List ℚ) (i : ℕ) (t : ℚ) (f : Bool),
        (AudioChunk.new s i t f).duration = (s.length : ℚ) / 16000
        ∧ (AudioChunk.new s i t f).sample_rate = 16000
        ∧ (AudioChunk.new s i t f).start_time = t) := by
  constructor
  · cases createOk with
    | false => simp [process_audio_stream]
    | true =>
        intro c hc
        exact consumeLoop_chunk_source elapsed oracle input 0 0 0 0 c
          (by simpa [process_audio_stream] using hc)
  · intro s i t f
    exact ⟨rfl, rfl, rfl⟩

/-- Witness for C10 at a concrete run: a chunk starting at 5 s with 2 samples
yields an outward chunk spanning exactly its window. -/
theorem streaming_chunk_window_times_witness :
    ∃ a : AudioChunk, Except.ok a ∈
      ([Except.ok (AudioChunk.new [0, 0] 2 5 false)] : List (Except WhisperErr AudioChunk))
      ∧ ({ text := "", start := 5, end_time := 5 + 2 / 16000, is_final := false,
           chunk_index := 2, final_stats := none } : StreamingChunk).start = a.start_time
      ∧ ({ text := "", start := 5, end_time := 5 + 2 / 16000, is_final := false,
           chunk_index := 2, final_stats := none } : StreamingChunk).end_time
          = a.start_time + a.duration
      ∧ ({ text := "", start := 5, end_time := 5 + 2 / 16000, is_final := false,
           chunk_index := 2, final_stats := none } : StreamingChunk).chunk_index = a.index
      ∧ ({ text := "", start := 5, end_time := 5 + 2 / 16000, is_final := false,
           chunk_index := 2, final_stats := none } : StreamingChunk).is_final = a.is_final := by
  refine (streaming_chunk_window_times true (fun _ => 1)
    (fun _ => ⟨true, some 0, fun _ => none⟩)
    [Except.ok (AudioChunk.new [0, 0] 2 5 false)]).1
    { text := "", start := 5, end_time := 5 + 2 / 16000, is_final := false,
      chunk_index := 2, final_stats := none } ?_
  simp [process_audio_stream, consumeLoop, AudioChunk.new, segmentsText]

/-- Reduction of a guard `if b = false` once `b` is known to be `true`. -/
theorem if_bool_false_eq {α : Type} (a b : α) : (if (true = false) then a else b) = b := by
  simp

/-- Reduction of a guard `if b = false` once `b` is known to be `false`. -/
theorem if_bool_true_eq {α : Type} (a b : α) : (if (false = false) then a else b) = a := by
  simp

/-- `okChunks` distributes over append. -/
theorem okChunks_append (l1 l2 : List (Except WhisperErr AudioChunk)) :
    okChunks (l1 ++ l2) = okChunks l1 ++ okChunks l2 := by
  simp [okChunks, List.filterMap_append]

/-- Publishing on an open channel always succeeds and appends the message. -/
theorem sendMsg_none (s : ProducerState) (m : Except WhisperErr AudioChunk)
    (h : s.cap = none) : sendMsg s m = ({ s with sent := s.sent ++ [m] }, true) := by
  simp [sendMsg, h]

/-- The drain loop does nothing when the buffer holds fewer than
`TARGET_SAMPLES` samples. -/
theorem drainSend_stop (fuel : ℕ) (s : ProducerState)
    (h : s.chunk_samples.length < AudioChunk.TARGET_SAMPLES) :
    drainSend fuel s = (s, false) := by
  cases fuel with
  | zero => rfl
  | succ f =>
      simp only [drainSend]
      rw [if_neg (by omega)]

/-- One successful iteration of the drain loop on an open channel. -/
theorem drainSend_step_none (fuel : ℕ) (s : ProducerState)
    (h : AudioChunk.TARGET_SAMPLES ≤ s.chunk_samples.length) (hcap : s.cap = none) :
    drainSend (fuel + 1) s = drainSend fuel
      { s with chunk_samples := s.chunk_samples.drop AudioChunk.TARGET_SAMPLES,
               sent := s.sent ++ [.ok (AudioChunk.new
                 (s.chunk_samples.take AudioChunk.TARGET_SAMPLES) s.chunk_index
                 ((s.total_samples_processed : ℚ) / 16000) false)],
               chunk_index := s.chunk_index + 1,
               total_samples_processed :=
                 s.total_samples_processed + AudioChunk.TARGET_SAMPLES } := by
  simp only [drainSend]
  rw [if_pos h]
  simp [sendMsg, hcap]

/-- One failing iteration of the drain loop on a closed channel: the chunk is
drained from the buffer, nothing is published, and the loop reports the early
stop. -/
theorem drainSend_step_closed (fuel : ℕ) (s : ProducerState)
    (h : AudioChunk.TARGET_SAMPLES ≤ s.chunk_samples.length) (hcap : s.cap = some 0) :
    drainSend (fuel + 1) s =
      ({ s with chunk_samples := s.chunk_samples.drop AudioChunk.TARGET_SAMPLES }, true) := by
  simp only [drainSend]
  rw [if_pos h]
  simp [sendMsg, hcap]

/-- The drain loop preserves the producer invariant on an open channel, never
stops early, and leaves the resampler state and capacity unchanged. -/
theorem drainSend_good : ∀ (fuel : ℕ) (s : ProducerState), GoodState s →
    GoodState (drainSend fuel s).1 ∧ (drainSend fuel s).2 = false := by
  intro fuel
  induction fuel with
  | zero => intro s hs; exact ⟨hs, rfl⟩
  | succ f ih =>
      intro s hs
      obtain ⟨hcap, hmap, hall⟩ := hs
      by_cases hT : AudioChunk.TARGET_SAMPLES ≤ s.chunk_samples.length
      · rw [drainSend_step_none f s hT hcap]
        apply ih
        refine ⟨hcap, ?_, ?_⟩
        · rw [okChunks_append]
          simp only [List.map_append]
          rw [hmap]
          simp [okChunks, AudioChunk.new, List.range_succ]
        · intro c hc
          rw [okChunks_append] at hc
          rcases List.mem_append.mp hc with hc | hc
          · exact hall c hc
          · have hc2 : c = AudioChunk.new
                (s.chunk_samples.take AudioChunk.TARGET_SAMPLES) s.chunk_index
                ((s.total_samples_processed : ℚ) / 16000) false := by
              simpa [okChunks] using hc
            subst hc2
            refine ⟨rfl, ?_⟩
            simp [AudioChunk.new, List.length_take]
            omega
      · rw [drainSend_stop (f + 1) s (by omega)]
        exact ⟨⟨hcap, hmap, hall⟩, rfl⟩

/-- The frame loop of the producer preserves the invariant on an open channel
and never stops early. -/
theorem framesLoop_good (renv : ResampleEnv) : ∀ (fs : List AudioFrame) (s : ProducerState),
    GoodState s → GoodState (framesLoop renv fs s).1 ∧ (framesLoop renv fs s).2 = false := by
  intro fs
  induction fs with
  | nil => intro s hs; exact ⟨hs, rfl⟩
  | cons f fs ih =>
      intro s hs
      rcases hpr : process_audio_frame_to_buffer renv f s.res with e | r
      · simp only [framesLoop, hpr]
        exact ih s hs
      · have hs1 : GoodState { s with res := r.st, chunk_samples := s.chunk_samples ++ r.out } :=
          ⟨hs.1, hs.2.1, hs.2.2⟩
        have hd := drainSend_good
          ({ s with res := r.st, chunk_samples := s.chunk_samples ++ r.out }).chunk_samples.length
          { s with res := r.st, chunk_samples := s.chunk_samples ++ r.out } hs1
        rcases hds : drainSend
            ({ s with res := r.st, chunk_samples := s.chunk_samples ++ r.out }).chunk_samples.length
            { s with res := r.st, chunk_samples := s.chunk_samples ++ r.out } with ⟨s2, b⟩
        rw [hds] at hd
        obtain ⟨hg2, hb⟩ := hd
        simp only at hb
        subst hb
        simp only [framesLoop, hpr, hds]
        exact ih s2 hg2

/-- The packet loop of the producer preserves the invariant on an open channel
and never exits early. -/
theorem packetsLoop_good (renv : ResampleEnv) : ∀ (ps : List Packet) (s : ProducerState),
    GoodState s → GoodState (packetsLoop renv ps s).1
      ∧ (packetsLoop renv ps s).2.2 ≠ LoopExit.earlyStop := by
  intro ps
  induction ps with
  | nil => intro s hs; exact ⟨hs, by simp [packetsLoop]⟩
  | cons p ps ih =>
      intro s hs
      by_cases hon : p.onStream
      · cases hoc : p.outcome with
        | ok frames =>
            have hf := framesLoop_good renv frames s hs
            rcases hfs : framesLoop renv frames s with ⟨s1, b⟩
            rw [hfs] at hf
            obtain ⟨hg1, hb⟩ := hf
            simp only at hb
            subst hb
            have := ih s1 hg1
            simp only [packetsLoop, hon, hoc, if_pos, hfs]
            exact this
        | invalidData =>
            have := ih s hs
            simp only [packetsLoop, hon, hoc, if_pos]
            exact this
        | fatal m =>
            simp only [packetsLoop, hon, hoc, if_pos]
            refine ⟨⟨?_, ?_, ?_⟩, by simp⟩
            · rw [sendMsg_none s _ hs.1]
              exact hs.1
            · rw [sendMsg_none s _ hs.1]
              simp only
              rw [okChunks_append]
              simpa [okChunks] using hs.2.1
            · rw [sendMsg_none s _ hs.1]
              simp only
              rw [okChunks_append]
              intro c hc
              refine hs.2.2 c ?_
              simpa [okChunks] using hc
      · have := ih s hs
        simp only [packetsLoop, hon]
        simpa using this

/-- The flush loop only touches the chunk buffer and resampler state. -/
theorem flushLoop_fields (renv : ResampleEnv) : ∀ (fs : List AudioFrame) (s : ProducerState),
    (flushLoop renv fs s).sent = s.sent
    ∧ (flushLoop renv fs s).chunk_index = s.chunk_index
    ∧ (flushLoop renv fs s).cap = s.cap := by
  intro fs
  induction fs with
  | nil => intro s; exact ⟨rfl, rfl, rfl⟩
  | cons f fs ih =>
      intro s
      rcases hpr : process_audio_frame_to_buffer renv f s.res with e | r
      · simp only [flushLoop, hpr]
        exact ih s
      · simp only [flushLoop, hpr]
        exact ih _

/-- Packaging of the producer invariant into the outward claims about a chunk
list whose indices enumerate `0, …, k-1`. -/
theorem chunks_conclusions (cs : List AudioChunk) (k : ℕ)
    (h1 : cs.map AudioChunk.index = List.range k)
    (h2 : ∀ c ∈ cs, c.is_final = false ∧ c.samples.length = AudioChunk.TARGET_SAMPLES) :
    cs.map AudioChunk.index = List.range cs.length
    ∧ (∀ c ∈ cs.dropLast, c.is_final = false)
    ∧ cs.countP (·.is_final) ≤ 1
    ∧ (cs.countP (·.is_final) = 0 →
        ∀ c ∈ cs, c.samples.length = AudioChunk.TARGET_SAMPLES) := by
  have hk : cs.length = k := by
    have := congrArg List.length h1
    simpa using this
  refine ⟨by rw [hk]; exact h1, ?_, ?_, ?_⟩
  · intro c hc
    exact (h2 c (List.mem_of_mem_dropLast hc)).1
  · have hz : cs.countP (·.is_final) = 0 := by
      rw [List.countP_eq_zero]
      intro a ha
      simp [(h2 a ha).1]
    omega
  · intro _ c hc
    exact (h2 c hc).2

/-- Packaging of the producer invariant when one final chunk of index `k` is
appended at the end. -/
theorem chunks_concat_final_conclusions (cs : List AudioChunk) (k : ℕ) (fc : AudioChunk)
    (h1 : cs.map AudioChunk.index = List.range k)
    (h2 : ∀ c ∈ cs, c.is_final = false ∧ c.samples.length = AudioChunk.TARGET_SAMPLES)
    (hidx : fc.index = k) (hfin : fc.is_final = true) :
    (cs ++ [fc]).map AudioChunk.index = List.range (cs ++ [fc]).length
    ∧ (∀ c ∈ (cs ++ [fc]).dropLast, c.is_final = false)
    ∧ (cs ++ [fc]).countP (·.is_final) ≤ 1
    ∧ ((cs ++ [fc]).countP (·.is_final) = 0 →
        ∀ c ∈ cs ++ [fc], c.samples.length = AudioChunk.TARGET_SAMPLES) := by
  have hk : cs.length = k := by
    have := congrArg List.length h1
    simpa using this
  have hz : cs.countP (·.is_final) = 0 := by
    rw [List.countP_eq_zero]
    intro a ha
    simp [(h2 a ha).1]
  refine ⟨?_, ?_, ?_, ?_⟩
  · rw [List.map_append, h1]
    simp [hidx, hk, List.range_succ]
  · intro c hc
    rw [List.dropLast_concat] at hc
    exact (h2 c hc).1
  · rw [List.countP_append, hz]
    simp [hfin]
  · intro habs
    rw [List.countP_append, hz] at habs
    simp [hfin] at habs

/-- Claim C2 (corrected): on an open channel, the chunk messages published by
`stream_audio_sync` have contiguous indices `0, 1, …, k` in emission order;
all chunks but possibly the last are non-final; at most one published chunk
has `is_final = true` (necessarily the last); and when no published chunk is
final — which happens exactly when the stream's samples divide evenly into
full chunks — every published chunk has exactly `TARGET_SAMPLES` samples.
(The original "exactly one `is_final` chunk" fails for exact multiples of
160000 samples: see the counterexample.) -/
theorem chunk_indexing_contiguous (renv : ResampleEnv) (env : DecodeEnv) :
    (okChunks (stream_audio_sync renv env none).msgs).map AudioChunk.index
      = List.range (okChunks (stream_audio_sync renv env none).msgs).length
    ∧ (∀ c ∈ (okChunks (stream_audio_sync renv env none).msgs).dropLast, c.is_final = false)
    ∧ (okChunks (stream_audio_sync renv env none).msgs).countP (·.is_final) ≤ 1
    ∧ ((okChunks (stream_audio_sync renv env none).msgs).countP (·.is_final) = 0 →
        ∀ c ∈ okChunks (stream_audio_sync renv env none).msgs,
          c.samples.length = AudioChunk.TARGET_SAMPLES) := by
  cases hfe : env.fileExists with
  | false =>
      simp only [stream_audio_sync, hfe, if_bool_true_eq]
      rw [sendMsg_none _ _ rfl]
      exact chunks_conclusions _ 0 (by simp [okChunks, ProducerState.init])
        (by simp [okChunks, ProducerState.init])
  | true =>
  cases hoo : env.openOk with
  | false =>
      simp only [stream_audio_sync, hfe, hoo, if_bool_true_eq, if_bool_false_eq]
      exact chunks_conclusions _ 0 (by simp [okChunks]) (by simp [okChunks])
  | true =>
  cases has : env.hasAudioStream with
  | false =>
      simp only [stream_audio_sync, hfe, hoo, has, if_bool_true_eq, if_bool_false_eq]
      exact chunks_conclusions _ 0 (by simp [okChunks]) (by simp [okChunks])
  | true =>
  cases hde : env.decoderOk with
  | false =>
      simp only [stream_audio_sync, hfe, hoo, has, hde, if_bool_true_eq, if_bool_false_eq]
      exact chunks_conclusions _ 0 (by simp [okChunks]) (by simp [okChunks])
  | true =>
      have hinit : GoodState (ProducerState.init none) :=
        ⟨rfl, by simp [okChunks, ProducerState.init], by simp [okChunks, ProducerState.init]⟩
      have hgood := packetsLoop_good renv env.packets (ProducerState.init none) hinit
      rcases hpl : packetsLoop renv env.packets (ProducerState.init none) with ⟨s, n, ex⟩
      rw [hpl] at hgood
      obtain ⟨⟨hcap, hmap, hall⟩, hex⟩ := hgood
      cases ex with
      | earlyStop => exact absurd rfl hex
      | fatalErr e =>
          simp only [stream_audio_sync, hfe, hoo, has, hde, hpl, if_bool_false_eq]
          exact chunks_conclusions _ _ hmap hall
      | finished =>
          have hflds : (if env.flushOk then flushLoop renv env.flushFrames s else s).sent = s.sent
              ∧ (if env.flushOk then flushLoop renv env.flushFrames s else s).chunk_index
                  = s.chunk_index
              ∧ (if env.flushOk then flushLoop renv env.flushFrames s else s).cap = none := by
            cases env.flushOk with
            | false => exact ⟨rfl, rfl, hcap⟩
            | true =>
                simp only [if_true]
                obtain ⟨a, b, c⟩ := flushLoop_fields renv env.flushFrames s
                exact ⟨a, b, c.trans hcap⟩
          obtain ⟨hsent, hidx, hcap1⟩ := hflds
          simp only [stream_audio_sync, hfe, hoo, has, hde, hpl, if_bool_false_eq]
          by_cases hne : (if env.flushOk then flushLoop renv env.flushFrames s else s).chunk_samples ≠ []
          · rw [if_pos hne, sendMsg_none _ _ hcap1]
            simp only [hsent, okChunks_append]
            refine chunks_concat_final_conclusions _ s.chunk_index _ (by rw [hmap])
              hall ?_ ?_
            · simp [okChunks, AudioChunk.new, hidx]
            · simp [okChunks, AudioChunk.new]
          · rw [if_neg hne]
            by_cases hz : (if env.flushOk then flushLoop renv env.flushFrames s else s).chunk_index = 0
            · rw [if_pos hz, sendMsg_none _ _ hcap1]
              simp only [hsent, okChunks_append]
              have : okChunks [Except.error (WhisperErr.AudioProcessing noAudioMsg)] = [] := rfl
              rw [this, List.append_nil]
              exact chunks_conclusions _ _ hmap hall
            · rw [if_neg hz]
              simp only [hsent]
              exact chunks_conclusions _ _ hmap hall

/-- Evaluation of one full streaming run whose only packet decodes to a single
mono/f32/16 kHz frame of exactly `TARGET_SAMPLES` samples: the producer
publishes a single non-final chunk holding those samples and completes
without ever publishing a final chunk. -/
theorem stream_run_single_full_chunk (renv : ResampleEnv) (l : List ℚ)
    (hl : l.length = AudioChunk.TARGET_SAMPLES) :
    stream_audio_sync renv
      { path := "audio.wav", fileExists := true, openOk := true, hasAudioStream := true,
        decoderOk := true,
        packets := [⟨true, .ok [⟨.F32 .packed, 16000, 1, CH_LAYOUT_MONO, 1, [], l⟩]⟩],
        flushOk := true, flushFrames := [] } none
      = { msgs := [Except.ok (AudioChunk.new l 0 0 false)],
          consumed := 1, stopped := false, result := .ok () } := by
  have hT0 : 0 < AudioChunk.TARGET_SAMPLES := by decide
  have hpr : process_audio_frame_to_buffer renv
      ⟨.F32 .packed, 16000, 1, CH_LAYOUT_MONO, 1, [], l⟩ ResamplerState.init
      = .ok ⟨l, ResamplerState.init, 0⟩ := rfl
  have hdrop : l.drop AudioChunk.TARGET_SAMPLES = [] := by
    apply List.eq_nil_of_length_eq_zero
    rw [List.length_drop, hl]
    omega
  have htake : l.take AudioChunk.TARGET_SAMPLES = l := by
    rw [← hl, List.take_length]
  have hds : ∀ f, drainSend (f + 1)
      { chunk_samples := l, chunk_index := 0, total_samples_processed := 0,
        res := ResamplerState.init, sent := [], cap := none }
      = ({ chunk_samples := [], chunk_index := 1,
           total_samples_processed := AudioChunk.TARGET_SAMPLES,
           res := ResamplerState.init,
           sent := [Except.ok (AudioChunk.new l 0 0 false)], cap := none }, false) := by
    intro f
    rw [drainSend_step_none f _
      (by show AudioChunk.TARGET_SAMPLES ≤ l.length
          rw [hl]) rfl]
    rw [drainSend_stop f _
      (by show (l.drop AudioChunk.TARGET_SAMPLES).length < AudioChunk.TARGET_SAMPLES
          rw [hdrop]
          exact hT0)]
    rw [hdrop, htake]
    simp only [List.nil_append, Nat.cast_zero, zero_div, Nat.zero_add]
  have hex : ∃ f, l.length = f + 1 := ⟨l.length - 1, by omega⟩
  obtain ⟨f, hf⟩ := hex
  have hfl : framesLoop renv [⟨.F32 .packed, 16000, 1, CH_LAYOUT_MONO, 1, [], l⟩]
      (ProducerState.init none)
      = ({ chunk_samples := [], chunk_index := 1,
           total_samples_processed := AudioChunk.TARGET_SAMPLES,
           res := ResamplerState.init,
           sent := [Except.ok (AudioChunk.new l 0 0 false)], cap := none }, false) := by
    simp only [framesLoop, hpr, ProducerState.init, List.nil_append, hf, hds f]
  have hpl : packetsLoop renv
      [⟨true, .ok [⟨.F32 .packed, 16000, 1, CH_LAYOUT_MONO, 1, [], l⟩]⟩]
      (ProducerState.init none)
      = ({ chunk_samples := [], chunk_index := 1,
           total_samples_processed := AudioChunk.TARGET_SAMPLES,
           res := ResamplerState.init,
           sent := [Except.ok (AudioChunk.new l 0 0 false)], cap := none },
         1, .finished) := by
    simp only [packetsLoop, hfl, eq_self_iff_true, if_true, Nat.zero_add]
  simp only [stream_audio_sync, if_bool_false_eq, hpl, flushLoop, eq_self_iff_true, if_true]
  rw [if_neg (fun h => h rfl)]
  rw [if_neg (show ¬ (1 : ℕ) = 0 from Nat.one_ne_zero)]

/-- Counterexample for C2 as stated: a stream of exactly 160000 samples (one
full chunk) emits exactly one chunk, and that chunk has `is_final = false` —
no emitted chunk carries the final flag, contradicting "exactly one emitted
chunk — the last one — has `is_final = true`". -/
theorem chunk_indexing_counterexample :
    (stream_audio_sync ⟨fun _ _ _ => true, fun _ _ _ _ => some []⟩
      { path := "audio.wav", fileExists := true, openOk := true, hasAudioStream := true,
        decoderOk := true,
        packets := [⟨true, .ok
          [⟨.F32 .packed, 16000, 1, CH_LAYOUT_MONO, 1, [], List.replicate 160000 0⟩]⟩],
        flushOk := true, flushFrames := [] } none).msgs
      = [Except.ok (AudioChunk.new (List.replicate 160000 0) 0 0 false)]
    ∧ (AudioChunk.new (List.replicate 160000 (0 : ℚ)) 0 0 false).is_final = false := by
  rw [stream_run_single_full_chunk ⟨fun _ _ _ => true, fun _ _ _ _ => some []⟩
    (List.replicate 160000 0) (List.length_replicate 160000 0)]
  exact ⟨rfl, rfl⟩

/-- Witness for the amended C2 at a concrete one-full-chunk input: the
final-flag count being zero there, every published chunk has exactly
`TARGET_SAMPLES` samples. -/
theorem chunk_indexing_contiguous_witness :
    ∀ c ∈ okChunks (stream_audio_sync ⟨fun _ _ _ => true, fun _ _ _ _ => some []⟩
      { path := "audio.wav", fileExists := true, openOk := true, hasAudioStream := true,
        decoderOk := true,
        packets := [⟨true, .ok
          [⟨.F32 .packed, 16000, 1, CH_LAYOUT_MONO, 1, [], List.replicate 160000 0⟩]⟩],
        flushOk := true, flushFrames := [] } none).msgs,
      c.samples.length = AudioChunk.TARGET_SAMPLES := by
  refine (chunk_indexing_contiguous ⟨fun _ _ _ => true, fun _ _ _ _ => some []⟩
    { path := "audio.wav", fileExists := true, openOk := true, hasAudioStream := true,
      decoderOk := true,
      packets := [⟨true, .ok
        [⟨.F32 .packed, 16000, 1, CH_LAYOUT_MONO, 1, [], List.replicate 160000 0⟩]⟩],
      flushOk := true, flushFrames := [] }).2.2.2 ?_
  rw [stream_run_single_full_chunk ⟨fun _ _ _ => true, fun _ _ _ _ => some []⟩
    (List.replicate 160000 0) (List.length_replicate 160000 0)]
  rfl

/-- Evaluation of a streaming run whose packets produce nothing and whose
decoder flush yields one mono/f32/16 kHz frame with a nonempty payload: the
flush loop appends without draining, so the whole payload is published as a
single final chunk regardless of its size. -/
theorem stream_run_flush_only (renv : ResampleEnv) (l : List ℚ) (hne : l ≠ []) :
    stream_audio_sync renv
      { path := "audio.wav", fileExists := true, openOk := true, hasAudioStream := true,
        decoderOk := true, packets := [], flushOk := true,
        flushFrames := [⟨.F32 .packed, 16000, 1, CH_LAYOUT_MONO, 1, [], l⟩] } none
      = { msgs := [Except.ok (AudioChunk.new l 0 0 true)],
          consumed := 0, stopped := false, result := .ok () } := by
  have hpr : process_audio_frame_to_buffer renv
      ⟨.F32 .packed, 16000, 1, CH_LAYOUT_MONO, 1, [], l⟩ ResamplerState.init
      = .ok ⟨l, ResamplerState.init, 0⟩ := rfl
  have hflu : flushLoop renv [⟨.F32 .packed, 16000, 1, CH_LAYOUT_MONO, 1, [], l⟩]
      (ProducerState.init none)
      = { chunk_samples := l, chunk_index := 0, total_samples_processed := 0,
          res := ResamplerState.init, sent := [], cap := none } := by
    simp only [flushLoop, hpr, ProducerState.init, List.nil_append]
  have hpl : packetsLoop renv [] (ProducerState.init none)
      = (ProducerState.init none, 0, .finished) := rfl
  simp only [stream_audio_sync, if_bool_false_eq, hpl, eq_self_iff_true, if_true, hflu]
  rw [if_pos hne, sendMsg_none _ _ rfl]
  simp only [List.nil_append, Nat.cast_zero, zero_div]

/-- Claim C1 (code bug): evaluation of `stream_audio_sync` at a stream whose
decoder flush yields 170000 samples.  The packet loop drains full chunks
after every frame append, but the flush loop (audio.rs:370-392) appends
without draining, so the run emits a single final chunk of 170000 samples —
more than `TARGET_SAMPLES` — where the spec requires a non-final chunk of
160000 samples followed by a final chunk of `170000 % 160000 = 10000`
samples. -/
theorem chunk_coverage_flush_code_bug :
    (stream_audio_sync ⟨fun _ _ _ => true, fun _ _ _ _ => some []⟩
      { path := "audio.wav", fileExists := true, openOk := true, hasAudioStream := true,
        decoderOk := true, packets := [], flushOk := true,
        flushFrames :=
          [⟨.F32 .packed, 16000, 1, CH_LAYOUT_MONO, 1, [], List.replicate 170000 0⟩] }
      none).msgs
      = [Except.ok (AudioChunk.new (List.replicate 170000 0) 0 0 true)]
    ∧ (AudioChunk.new (List.replicate 170000 (0 : ℚ)) 0 0 true).samples.length = 170000
    ∧ 170000 % AudioChunk.TARGET_SAMPLES = 10000
    ∧ (170000 : ℕ) ≠ 10000 := by
  refine ⟨?_, ?_, by decide, by decide⟩
  · rw [stream_run_flush_only ⟨fun _ _ _ => true, fun _ _ _ _ => some []⟩
      (List.replicate 170000 0)
      (by intro h
          have h2 := congrArg List.length h
          rw [List.length_replicate] at h2
          exact absurd h2 (by decide))]
  · show (List.replicate 170000 (0 : ℚ)).length = 170000
    rw [List.length_replicate]

/-- Claim C8 (confirmed): decoding fails with an `AudioProcessing` error when
the file does not exist or when no audio stream is found — in both the batch
loader and the streaming producer — and fails with the `AudioProcessing`
"no audio data could be extracted" error when, after processing all packets
and flushing, zero samples were ever produced; a nonexistent path never
partially succeeds (the only message ever published is the terminal error,
and no packet is consumed). -/
theorem decode_failure_modes (renv : ResampleEnv) (env : DecodeEnv) :
    (env.fileExists = false →
      load_audio_sync renv env
          = .error (.AudioProcessing ("Audio file not found: " ++ env.path))
      ∧ (∀ cap, (stream_audio_sync renv env cap).result
            = .error (.AudioProcessing ("Audio file not found: " ++ env.path))
          ∧ (stream_audio_sync renv env cap).consumed = 0)
      ∧ (stream_audio_sync renv env none).msgs
          = [.error (.AudioProcessing ("Audio file not found: " ++ env.path))])
    ∧ (env.fileExists = true → env.openOk = true → env.hasAudioStream = false →
      load_audio_sync renv env = .error (.AudioProcessing "No audio stream found")
      ∧ ∀ cap, (stream_audio_sync renv env cap).result
            = .error (.AudioProcessing "No audio stream found")
          ∧ (stream_audio_sync renv env cap).msgs = []
          ∧ (stream_audio_sync renv env cap).consumed = 0)
    ∧ (∀ st1, loadDecode renv env = .ok ([], st1) →
        env.fileExists = true → env.openOk = true → env.hasAudioStream = true →
        env.decoderOk = true →
        load_audio_sync renv env = .error (.AudioProcessing noAudioMsg))
    ∧ (∀ d, load_audio_sync renv env = .ok d → d.samples ≠ [])
    ∧ (∀ s n, packetsLoop renv env.packets (ProducerState.init none) = (s, n, .finished) →
        (if env.flushOk then flushLoop renv env.flushFrames s else s).chunk_samples = [] →
        (if env.flushOk then flushLoop renv env.flushFrames s else s).chunk_index = 0 →
        env.fileExists = true → env.openOk = true → env.hasAudioStream = true →
        env.decoderOk = true →
        (stream_audio_sync renv env none).result = .error (.AudioProcessing noAudioMsg)
        ∧ (stream_audio_sync renv env none).msgs
            = (if env.flushOk then flushLoop renv env.flushFrames s else s).sent
              ++ [.error (.AudioProcessing noAudioMsg)]) := by
  refine ⟨?_, ?_, ?_, ?_, ?_⟩
  · intro hfe
    refine ⟨?_, fun cap => ⟨?_, ?_⟩, ?_⟩
    · simp only [load_audio_sync, hfe, if_bool_true_eq, if_true, eq_self_iff_true]
    · simp only [stream_audio_sync, hfe, if_bool_true_eq, if_true, eq_self_iff_true]
    · simp only [stream_audio_sync, hfe, if_bool_true_eq, if_true, eq_self_iff_true]
    · simp only [stream_audio_sync, hfe, if_bool_true_eq, if_true, eq_self_iff_true]
      rw [sendMsg_none _ _ rfl]
      simp [ProducerState.init]
  · intro hfe hoo has
    refine ⟨?_, fun cap => ⟨?_, ?_, ?_⟩⟩ <;>
      simp only [load_audio_sync, stream_audio_sync, hfe, hoo, has,
        if_bool_true_eq, if_bool_false_eq, if_true, if_false, eq_self_iff_true,
        Bool.true_eq_false]
  · intro st1 hld hfe hoo has hde
    simp only [load_audio_sync, hfe, hoo, has, hde, if_bool_false_eq, hld,
      if_true, if_false, eq_self_iff_true, Bool.true_eq_false]
  · intro d hd
    simp only [load_audio_sync] at hd
    split at hd
    · exact absurd hd (by simp)
    · split at hd
      · exact absurd hd (by simp)
      · split at hd
        · exact absurd hd (by simp)
        · split at hd
          · exact absurd hd (by simp)
          · split at hd
            · exact absurd hd (by simp)
            · rename_i q heq
              split at hd
              · exact absurd hd (by simp)
              · rename_i hq
                have hd2 := Except.ok.inj hd
                rw [← hd2]
                exact hq
  · intro s n hpl hbuf hidx hfe hoo has hde
    have hinit : GoodState (ProducerState.init none) :=
      ⟨rfl, by simp [okChunks, ProducerState.init], by simp [okChunks, ProducerState.init]⟩
    have hgood := packetsLoop_good renv env.packets (ProducerState.init none) hinit
    rw [hpl] at hgood
    have hcap : s.cap = none := hgood.1.1
    have hcap1 : (if env.flushOk then flushLoop renv env.flushFrames s else s).cap = none := by
      cases env.flushOk with
      | false => exact hcap
      | true =>
          simp only [if_true]
          exact (flushLoop_fields renv env.flushFrames s).2.2.trans hcap
    simp only [stream_audio_sync, hfe, hoo, has, hde, if_bool_false_eq, hpl,
      if_true, if_false, eq_self_iff_true, Bool.true_eq_false]
    rw [if_neg (fun h => h hbuf), if_pos hidx, sendMsg_none _ _ hcap1]
    exact ⟨rfl, rfl⟩

/-- Witness for C8 at three concrete environments: a missing file, a file with
no audio stream, and a well-formed stream with zero decodable audio. -/
theorem decode_failure_modes_witness :
    load_audio_sync ⟨fun _ _ _ => true, fun _ _ _ _ => some []⟩
      { path := "missing.wav", fileExists := false, openOk := true, hasAudioStream := true,
        decoderOk := true, packets := [], flushOk := true, flushFrames := [] }
      = .error (.AudioProcessing ("Audio file not found: " ++ "missing.wav"))
    ∧ (stream_audio_sync ⟨fun _ _ _ => true, fun _ _ _ _ => some []⟩
        { path := "nostream.wav", fileExists := true, openOk := true,
          hasAudioStream := false, decoderOk := true, packets := [], flushOk := true,
          flushFrames := [] } none).result
        = .error (.AudioProcessing "No audio stream found")
    ∧ load_audio_sync ⟨fun _ _ _ => true, fun _ _ _ _ => some []⟩
        { path := "empty.wav", fileExists := true, openOk := true, hasAudioStream := true,
          decoderOk := true, packets := [], flushOk := true, flushFrames := [] }
      = .error (.AudioProcessing noAudioMsg) :=
  ⟨((decode_failure_modes ⟨fun _ _ _ => true, fun _ _ _ _ => some []⟩
      { path := "missing.wav", fileExists := false, openOk := true, hasAudioStream := true,
        decoderOk := true, packets := [], flushOk := true, flushFrames := [] }).1 rfl).1,
   (((decode_failure_modes ⟨fun _ _ _ => true, fun _ _ _ _ => some []⟩
      { path := "nostream.wav", fileExists := true, openOk := true,
        hasAudioStream := false, decoderOk := true, packets := [], flushOk := true,
        flushFrames := [] }).2.1 rfl rfl rfl).2 none).1,
   (decode_failure_modes ⟨fun _ _ _ => true, fun _ _ _ _ => some []⟩
      { path := "empty.wav", fileExists := true, openOk := true, hasAudioStream := true,
        decoderOk := true, packets := [], flushOk := true, flushFrames := [] }).2.2.1
     ResamplerState.init rfl rfl rfl rfl rfl⟩

/-- One iteration of the drain loop on a channel with remaining capacity
`k + 1`: the chunk is published and the capacity decreases to `k`. -/
theorem drainSend_step_send (fuel : ℕ) (s : ProducerState) (k : ℕ)
    (h : AudioChunk.TARGET_SAMPLES ≤ s.chunk_samples.length)
    (hcap : s.cap = some (k + 1)) :
    drainSend (fuel + 1) s = drainSend fuel
      { s with chunk_samples := s.chunk_samples.drop AudioChunk.TARGET_SAMPLES,
               sent := s.sent ++ [.ok (AudioChunk.new
                 (s.chunk_samples.take AudioChunk.TARGET_SAMPLES) s.chunk_index
                 ((s.total_samples_processed : ℚ) / 16000) false)],
               cap := some k,
               chunk_index := s.chunk_index + 1,
               total_samples_processed :=
                 s.total_samples_processed + AudioChunk.TARGET_SAMPLES } := by
  simp only [drainSend]
  rw [if_pos h]
  simp [sendMsg, hcap]

/-- Unfolding of the packet loop on a packet of another stream. -/
theorem packetsLoop_cons_skip (renv : ResampleEnv) (p : Packet) (ps : List Packet)
    (s : ProducerState) (hon : p.onStream = false) :
    packetsLoop renv (p :: ps) s
      = ((packetsLoop renv ps s).1, (packetsLoop renv ps s).2.1 + 1,
          (packetsLoop renv ps s).2.2) := by
  simp [packetsLoop, hon]

/-- Unfolding of the packet loop when the packet decodes and a chunk publish
fails during its frames: the loop stops after this packet. -/
theorem packetsLoop_cons_ok_early (renv : ResampleEnv) (p : Packet) (ps : List Packet)
    (s : ProducerState) (frames : List AudioFrame) (s1 : ProducerState)
    (hon : p.onStream = true) (hoc : p.outcome = SendOutcome.ok frames)
    (hfs : framesLoop renv frames s = (s1, true)) :
    packetsLoop renv (p :: ps) s = (s1, 1, LoopExit.earlyStop) := by
  simp [packetsLoop, hon, hoc, hfs]

/-- Unfolding of the packet loop when the packet decodes and all its chunk
publishes succeed: the loop continues on the remaining packets. -/
theorem packetsLoop_cons_ok_cont (renv : ResampleEnv) (p : Packet) (ps : List Packet)
    (s : ProducerState) (frames : List AudioFrame) (s1 : ProducerState)
    (hon : p.onStream = true) (hoc : p.outcome = SendOutcome.ok frames)
    (hfs : framesLoop renv frames s = (s1, false)) :
    packetsLoop renv (p :: ps) s
      = ((packetsLoop renv ps s1).1, (packetsLoop renv ps s1).2.1 + 1,
          (packetsLoop renv ps s1).2.2) := by
  simp [packetsLoop, hon, hoc, hfs]

/-- Unfolding of the packet loop on an `InvalidData` packet: it is skipped. -/
theorem packetsLoop_cons_invalid (renv : ResampleEnv) (p : Packet) (ps : List Packet)
    (s : ProducerState) (hon : p.onStream = true)
    (hoc : p.outcome = SendOutcome.invalidData) :
    packetsLoop renv (p :: ps) s
      = ((packetsLoop renv ps s).1, (packetsLoop renv ps s).2.1 + 1,
          (packetsLoop renv ps s).2.2) := by
  simp [packetsLoop, hon, hoc]

/-- Unfolding of the packet loop on a fatally failing packet: the error is
published and the loop aborts. -/
theorem packetsLoop_cons_fatal (renv : ResampleEnv) (p : Packet) (ps : List Packet)
    (s : ProducerState) (m : String) (hon : p.onStream = true)
    (hoc : p.outcome = SendOutcome.fatal m) :
    packetsLoop renv (p :: ps) s
      = ((sendMsg s (Except.error
            (WhisperErr.FFmpeg ("Failed to send packet to decoder: " ++ m)))).1,
         1, LoopExit.fatalErr (WhisperErr.FFmpeg ("Failed to send packet to decoder: " ++ m))) := by
  simp [packetsLoop, hon, hoc]

/-- A publish preserves the budget accounting on a channel that accepts `c0`
messages in total. -/
theorem sendMsg_budget (c0 : ℕ) (s : ProducerState) (m : Except WhisperErr AudioChunk)
    (h : Budget c0 s) : Budget c0 (sendMsg s m).1 := by
  obtain ⟨hcap, hle⟩ := h
  rcases hk : c0 - s.sent.length with _ | k
  · have hcap0 : s.cap = some 0 := by rw [hcap, hk]
    have hmsg : sendMsg s m = (s, false) := by simp [sendMsg, hcap0]
    rw [hmsg]
    exact ⟨hcap, hle⟩
  · have hcapk : s.cap = some (k + 1) := by rw [hcap, hk]
    have hmsg : sendMsg s m
        = ({ s with sent := s.sent ++ [m], cap := some k }, true) := by
      simp [sendMsg, hcapk]
    rw [hmsg]
    refine ⟨?_, ?_⟩
    · show some k = some (c0 - (s.sent ++ [m]).length)
      rw [List.length_append, List.length_cons, List.length_nil]
      congr 1
      omega
    · show (s.sent ++ [m]).length ≤ c0
      rw [List.length_append, List.length_cons, List.length_nil]
      omega

/-- The drain loop preserves the budget accounting, and an early stop means
the channel is exhausted: exactly `c0` messages were ever published. -/
theorem drainSend_budget (c0 : ℕ) : ∀ (fuel : ℕ) (s : ProducerState), Budget c0 s →
    Budget c0 (drainSend fuel s).1
    ∧ ((drainSend fuel s).2 = true → (drainSend fuel s).1.sent.length = c0) := by
  intro fuel
  induction fuel with
  | zero => intro s hs; exact ⟨hs, fun hcon => absurd hcon (by simp [drainSend])⟩
  | succ f ih =>
      intro s hs
      obtain ⟨hcap, hle⟩ := hs
      by_cases hT : AudioChunk.TARGET_SAMPLES ≤ s.chunk_samples.length
      · rcases hk : c0 - s.sent.length with _ | k
        · have hcap0 : s.cap = some 0 := by rw [hcap, hk]
          rw [drainSend_step_closed f s hT hcap0]
          have hlen : s.sent.length = c0 := by omega
          exact ⟨⟨hcap, hle⟩, fun _ => hlen⟩
        · have hcapk : s.cap = some (k + 1) := by rw [hcap, hk]
          rw [drainSend_step_send f s k hT hcapk]
          apply ih
          refine ⟨?_, ?_⟩
          · show some k = some (c0 - (s.sent ++ [Except.ok (AudioChunk.new
                (s.chunk_samples.take AudioChunk.TARGET_SAMPLES) s.chunk_index
                ((s.total_samples_processed : ℚ) / 16000) false)]).length)
            rw [List.length_append, List.length_cons, List.length_nil]
            congr 1
            omega
          · show (s.sent ++ [Except.ok (AudioChunk.new
                (s.chunk_samples.take AudioChunk.TARGET_SAMPLES) s.chunk_index
                ((s.total_samples_processed : ℚ) / 16000) false)]).length ≤ c0
            rw [List.length_append, List.length_cons, List.length_nil]
            omega
      · rw [drainSend_stop (f + 1) s (by omega)]
        exact ⟨⟨hcap, hle⟩, fun hcon => absurd hcon (by simp)⟩

/-- The frame loop preserves the budget accounting, and an early stop means
the channel is exhausted. -/
theorem framesLoop_budget (renv : ResampleEnv) (c0 : ℕ) :
    ∀ (fs : List AudioFrame) (s : ProducerState), Budget c0 s →
      Budget c0 (framesLoop renv fs s).1
      ∧ ((framesLoop renv fs s).2 = true → (framesLoop renv fs s).1.sent.length = c0) := by
  intro fs
  induction fs with
  | nil => intro s hs; exact ⟨hs, fun hcon => absurd hcon (by simp [framesLoop])⟩
  | cons f fs ih =>
      intro s hs
      rcases hpr : process_audio_frame_to_buffer renv f s.res with e | r
      · simp only [framesLoop, hpr]
        exact ih s hs
      · have hs1 : Budget c0 { s with res := r.st, chunk_samples := s.chunk_samples ++ r.out } :=
          ⟨hs.1, hs.2⟩
        have hd := drainSend_budget c0
          ({ s with res := r.st, chunk_samples := s.chunk_samples ++ r.out }).chunk_samples.length
          { s with res := r.st, chunk_samples := s.chunk_samples ++ r.out } hs1
        rcases hds : drainSend
            ({ s with res := r.st, chunk_samples := s.chunk_samples ++ r.out }).chunk_samples.length
            { s with res := r.st, chunk_samples := s.chunk_samples ++ r.out } with ⟨s2, b⟩
        rw [hds] at hd
        simp only [framesLoop, hpr, hds]
        cases b with
        | true => exact ⟨hd.1, fun _ => hd.2 rfl⟩
        | false => exact ih s2 hd.1

/-- The packet loop preserves the budget accounting, and an early exit means
the channel is exhausted: exactly `c0` messages were ever published. -/
theorem packetsLoop_budget (renv : ResampleEnv) (c0 : ℕ) :
    ∀ (ps : List Packet) (s : ProducerState), Budget c0 s →
      Budget c0 (packetsLoop renv ps s).1
      ∧ ((packetsLoop renv ps s).2.2 = LoopExit.earlyStop →
          (packetsLoop renv ps s).1.sent.length = c0) := by
  intro ps
  induction ps with
  | nil => intro s hs; exact ⟨hs, fun hcon => absurd hcon (by simp [packetsLoop])⟩
  | cons p ps ih =>
      intro s hs
      by_cases hon : p.onStream
      · cases hoc : p.outcome with
        | ok frames =>
            have hf := framesLoop_budget renv c0 frames s hs
            rcases hfs : framesLoop renv frames s with ⟨s1, b⟩
            rw [hfs] at hf
            cases b with
            | true =>
                rw [packetsLoop_cons_ok_early renv p ps s frames s1 hon hoc hfs]
                exact ⟨hf.1, fun _ => hf.2 rfl⟩
            | false =>
                rw [packetsLoop_cons_ok_cont renv p ps s frames s1 hon hoc hfs]
                have hih := ih s1 hf.1
                exact ⟨hih.1, fun hx => hih.2 hx⟩
        | invalidData =>
            rw [packetsLoop_cons_invalid renv p ps s hon hoc]
            have hih := ih s hs
            exact ⟨hih.1, fun hx => hih.2 hx⟩
        | fatal m =>
            rw [packetsLoop_cons_fatal renv p ps s m hon hoc]
            exact ⟨sendMsg_budget c0 s _ hs, fun hx => absurd hx (by simp)⟩
      · simp only [Bool.not_eq_true] at hon
        rw [packetsLoop_cons_skip renv p ps s hon]
        have hih := ih s hs
        exact ⟨hih.1, fun hx => hih.2 hx⟩

/-- The packet loop never reads past the packets it consumed: whenever it did
not run to completion, truncating the packet list at the consumed count
reproduces the run exactly, and the consumed count never exceeds the number
of available packets. -/
theorem packetsLoop_take_consumed (renv : ResampleEnv) :
    ∀ (ps : List Packet) (s : ProducerState),
      (packetsLoop renv ps s).2.2 ≠ LoopExit.finished →
      packetsLoop renv (List.take (packetsLoop renv ps s).2.1 ps) s = packetsLoop renv ps s
      ∧ (packetsLoop renv ps s).2.1 ≤ ps.length := by
  intro ps
  induction ps with
  | nil => intro s h; exact absurd rfl h
  | cons p ps ih =>
      intro s h
      by_cases hon : p.onStream
      · cases hoc : p.outcome with
        | ok frames =>
            rcases hfs : framesLoop renv frames s with ⟨s1, b⟩
            cases b with
            | true =>
                rw [packetsLoop_cons_ok_early renv p ps s frames s1 hon hoc hfs]
                refine ⟨?_, ?_⟩
                · show packetsLoop renv (List.take 1 (p :: ps)) s = (s1, 1, LoopExit.earlyStop)
                  rw [List.take_succ_cons, List.take_zero]
                  exact packetsLoop_cons_ok_early renv p [] s frames s1 hon hoc hfs
                · show (1 : ℕ) ≤ (p :: ps).length
                  rw [List.length_cons]
                  omega
            | false =>
                have hstep := packetsLoop_cons_ok_cont renv p ps s frames s1 hon hoc hfs
                have h1 : (packetsLoop renv ps s1).2.2 ≠ LoopExit.finished := by
                  rw [hstep] at h
                  exact h
                obtain ⟨hih1, hih2⟩ := ih s1 h1
                rw [hstep]
                refine ⟨?_, ?_⟩
                · show packetsLoop renv
                      (List.take ((packetsLoop renv ps s1).2.1 + 1) (p :: ps)) s
                    = ((packetsLoop renv ps s1).1, (packetsLoop renv ps s1).2.1 + 1,
                        (packetsLoop renv ps s1).2.2)
                  rw [List.take_succ_cons,
                    packetsLoop_cons_ok_cont renv p _ s frames s1 hon hoc hfs, hih1]
                · show (packetsLoop renv ps s1).2.1 + 1 ≤ (p :: ps).length
                  rw [List.length_cons]
                  omega
        | invalidData =>
            have hstep := packetsLoop_cons_invalid renv p ps s hon hoc
            have h1 : (packetsLoop renv ps s).2.2 ≠ LoopExit.finished := by
              rw [hstep] at h
              exact h
            obtain ⟨hih1, hih2⟩ := ih s h1
            rw [hstep]
            refine ⟨?_, ?_⟩
            · show packetsLoop renv
                  (List.take ((packetsLoop renv ps s).2.1 + 1) (p :: ps)) s
                = ((packetsLoop renv ps s).1, (packetsLoop renv ps s).2.1 + 1,
                    (packetsLoop renv ps s).2.2)
              rw [List.take_succ_cons,
                packetsLoop_cons_invalid renv p _ s hon hoc, hih1]
            · show (packetsLoop renv ps s).2.1 + 1 ≤ (p :: ps).length
              rw [List.length_cons]
              omega
        | fatal m =>
            rw [packetsLoop_cons_fatal renv p ps s m hon hoc]
            refine ⟨?_, ?_⟩
            · show packetsLoop renv (List.take 1 (p :: ps)) s = _
              rw [List.take_succ_cons, List.take_zero]
              exact packetsLoop_cons_fatal renv p [] s m hon hoc
            · show (1 : ℕ) ≤ (p :: ps).length
              rw [List.length_cons]
              omega
      · simp only [Bool.not_eq_true] at hon
        have hstep := packetsLoop_cons_skip renv p ps s hon
        have h1 : (packetsLoop renv ps s).2.2 ≠ LoopExit.finished := by
          rw [hstep] at h
          exact h
        obtain ⟨hih1, hih2⟩ := ih s h1
        rw [hstep]
        refine ⟨?_, ?_⟩
        · show packetsLoop renv
              (List.take ((packetsLoop renv ps s).2.1 + 1) (p :: ps)) s
            = ((packetsLoop renv ps s).1, (packetsLoop renv ps s).2.1 + 1,
                (packetsLoop renv ps s).2.2)
          rw [List.take_succ_cons, packetsLoop_cons_skip renv p _ s hon, hih1]
        · show (packetsLoop renv ps s).2.1 + 1 ≤ (p :: ps).length
          rw [List.length_cons]
          omega

/-- Claim C9 (confirmed): when a streaming run on a channel accepting only
`c0` messages ends through the early return that follows a failed chunk
publish, the producer terminated immediately: the channel's whole budget of
`c0` messages had been published and nothing more, the function returned
`Ok(())` without reaching the flush or final-chunk logic, at most the
consumed prefix of the packet list was read, and re-running the producer on
exactly that consumed prefix reproduces the run — no further packets are
decoded and no further chunks are emitted after the failed publish. -/
theorem producer_stops_on_closed_channel (renv : ResampleEnv) (env : DecodeEnv) (c0 : ℕ)
    (hstop : (stream_audio_sync renv env (some c0)).stopped = true) :
    (stream_audio_sync renv env (some c0)).msgs.length = c0
    ∧ (stream_audio_sync renv env (some c0)).result = Except.ok ()
    ∧ (stream_audio_sync renv env (some c0)).consumed ≤ env.packets.length
    ∧ stream_audio_sync renv
        { env with packets :=
            List.take (stream_audio_sync renv env (some c0)).consumed env.packets }
        (some c0)
      = stream_audio_sync renv env (some c0) := by
  cases hfe : env.fileExists with
  | false => simp [stream_audio_sync, hfe] at hstop
  | true =>
  cases hoo : env.openOk with
  | false => simp [stream_audio_sync, hfe, hoo] at hstop
  | true =>
  cases has : env.hasAudioStream with
  | false => simp [stream_audio_sync, hfe, hoo, has] at hstop
  | true =>
  cases hde : env.decoderOk with
  | false => simp [stream_audio_sync, hfe, hoo, has, hde] at hstop
  | true =>
      have hbud := packetsLoop_budget renv c0 env.packets (ProducerState.init (some c0))
        ⟨rfl, Nat.zero_le c0⟩
      have htk := packetsLoop_take_consumed renv env.packets (ProducerState.init (some c0))
      rcases hpl : packetsLoop renv env.packets (ProducerState.init (some c0)) with ⟨s, n, ex⟩
      rw [hpl] at hbud
      cases ex with
      | finished =>
          exfalso
          simp only [stream_audio_sync, hfe, hoo, has, hde, if_bool_false_eq, hpl] at hstop
          repeat' split at hstop
          all_goals simp at hstop
      | fatalErr e =>
          exfalso
          simp only [stream_audio_sync, hfe, hoo, has, hde, if_bool_false_eq, hpl] at hstop
          simp at hstop
      | earlyStop =>
          have hne : (packetsLoop renv env.packets (ProducerState.init (some c0))).2.2
              ≠ LoopExit.finished := by
            rw [hpl]
            simp
          have htake : packetsLoop renv (List.take n env.packets)
                (ProducerState.init (some c0)) = (s, n, LoopExit.earlyStop)
              ∧ n ≤ env.packets.length := by
            have h1 := htk hne
            rw [hpl] at h1
            exact h1
          have hmain : stream_audio_sync renv env (some c0)
              = { msgs := s.sent, consumed := n, stopped := true, result := .ok () } := by
            simp only [stream_audio_sync, hfe, hoo, has, hde, if_bool_false_eq, hpl]
          refine ⟨?_, ?_, ?_, ?_⟩
          · rw [hmain]
            exact hbud.2 rfl
          · rw [hmain]
          · rw [hmain]
            exact htake.2
          · rw [hmain]
            simp only [stream_audio_sync, hfe, hoo, has, hde, if_bool_false_eq, htake.1]

/-- Evaluation of a streaming run on a channel that accepts no message at
all (capacity 0), whose only packet decodes to a single mono/f32/16 kHz
frame of exactly `TARGET_SAMPLES` samples: the very first chunk publish
fails, the producer stops after that one packet, and nothing is emitted. -/
theorem stream_run_closed_channel (renv : ResampleEnv) (l : List ℚ)
    (hl : l.length = AudioChunk.TARGET_SAMPLES) :
    stream_audio_sync renv
      { path := "audio.wav", fileExists := true, openOk := true, hasAudioStream := true,
        decoderOk := true,
        packets := [⟨true, .ok [⟨.F32 .packed, 16000, 1, CH_LAYOUT_MONO, 1, [], l⟩]⟩],
        flushOk := true, flushFrames := [] } (some 0)
      = { msgs := [], consumed := 1, stopped := true, result := .ok () } := by
  have hpr : process_audio_frame_to_buffer renv
      ⟨.F32 .packed, 16000, 1, CH_LAYOUT_MONO, 1, [], l⟩ ResamplerState.init
      = .ok ⟨l, ResamplerState.init, 0⟩ := rfl
  have hT0 : 0 < AudioChunk.TARGET_SAMPLES := by decide
  obtain ⟨f, hf⟩ : ∃ f, l.length = f + 1 := ⟨l.length - 1, by
    have hpos : 0 < l.length := by rw [hl]; exact hT0
    omega⟩
  have hds : drainSend (f + 1)
      { chunk_samples := l, chunk_index := 0, total_samples_processed := 0,
        res := ResamplerState.init, sent := [], cap := some 0 }
      = ({ chunk_samples := l.drop AudioChunk.TARGET_SAMPLES, chunk_index := 0,
           total_samples_processed := 0, res := ResamplerState.init, sent := [],
           cap := some 0 }, true) := by
    exact drainSend_step_closed f _
      (by show AudioChunk.TARGET_SAMPLES ≤ l.length
          rw [hl]) rfl
  have hfl : framesLoop renv [⟨.F32 .packed, 16000, 1, CH_LAYOUT_MONO, 1, [], l⟩]
      (ProducerState.init (some 0))
      = ({ chunk_samples := l.drop AudioChunk.TARGET_SAMPLES, chunk_index := 0,
           total_samples_processed := 0, res := ResamplerState.init, sent := [],
           cap := some 0 }, true) := by
    simp only [framesLoop, hpr, ProducerState.init, List.nil_append, hf, hds]
  have hpl : packetsLoop renv
      [⟨true, .ok [⟨.F32 .packed, 16000, 1, CH_LAYOUT_MONO, 1, [], l⟩]⟩]
      (ProducerState.init (some 0))
      = ({ chunk_samples := l.drop AudioChunk.TARGET_SAMPLES, chunk_index := 0,
           total_samples_processed := 0, res := ResamplerState.init, sent := [],
           cap := some 0 }, 1, .earlyStop) := by
    simp only [packetsLoop, hfl, eq_self_iff_true, if_true]
  simp only [stream_audio_sync, if_bool_false_eq, hpl]

/-- Witness for C9 at a concrete run: capacity 0 and a single packet that
decodes to one full chunk of zeros; the failed publish stops the producer
with an empty message list and a successful return. -/
theorem producer_stops_on_closed_channel_witness :
    (stream_audio_sync ⟨fun _ _ _ => true, fun _ _ _ _ => some []⟩
      { path := "audio.wav", fileExists := true, openOk := true, hasAudioStream := true,
        decoderOk := true,
        packets := [⟨true, .ok
          [⟨.F32 .packed, 16000, 1, CH_LAYOUT_MONO, 1, [], List.replicate 160000 0⟩]⟩],
        flushOk := true, flushFrames := [] } (some 0)).msgs.length = 0
    ∧ (stream_audio_sync ⟨fun _ _ _ => true, fun _ _ _ _ => some []⟩
      { path := "audio.wav", fileExists := true, openOk := true, hasAudioStream := true,
        decoderOk := true,
        packets := [⟨true, .ok
          [⟨.F32 .packed, 16000, 1, CH_LAYOUT_MONO, 1, [], List.replicate 160000 0⟩]⟩],
        flushOk := true, flushFrames := [] } (some 0)).result = Except.ok () := by
  have h := producer_stops_on_closed_channel ⟨fun _ _ _ => true, fun _ _ _ _ => some []⟩
    { path := "audio.wav", fileExists := true, openOk := true, hasAudioStream := true,
      decoderOk := true,
      packets := [⟨true, .ok
        [⟨.F32 .packed, 16000, 1, CH_LAYOUT_MONO, 1, [], List.replicate 160000 0⟩]⟩],
      flushOk := true, flushFrames := [] } 0
    (by rw [stream_run_closed_channel ⟨fun _ _ _ => true, fun _ _ _ _ => some []⟩
        (List.replicate 160000 0) (List.length_replicate 160000 0)])
  exact ⟨h.1, h.2.1⟩

end Purr
